import Mathlib

/-!
# Lifecycle orchestration of the QingCloud Terraform provider

A shallow embedding of `qingcloud/resource_qingcloud_cache_help.go` and
`qingcloud/resource_qingcloud_instance.go`.

The remote control plane is an arbitrary deterministic state machine over a
world type `σ`: every SDK call maps a request and a world to a result and a
new world.  Each Go function becomes a function that threads the resource
data and the world and returns, next to its Go return value, the trace of
the operations it issued, in order, each with its outcome.

Helpers of the package whose bodies live in other files
(`CacheTransitionStateRefresh`, `waitInstanceLease`, the `instanceUpdate*`
steps, ...) are fields of the environment structures.
-/

namespace Qingcloud

/-- Go `error` values are represented by their message; `Option Err` is a Go
`error` result, with `none` for `nil`. -/
abbrev Err := String

/-! ## Cache helper: data model -/

/-- Request of `ModifyCacheAttributes`; `new(...)` leaves every field `nil`. -/
structure ModifyCacheAttributesInput where
  Cache : Option String
  Description : Option String
  CacheName : Option String
  AutoBackupTime : Option Int
deriving DecidableEq, Repr

/-- Request of `StopCaches`. -/
structure StopCachesInput where
  Caches : List (Option String)
deriving DecidableEq, Repr

/-- Request of `ResizeCaches`. -/
structure ResizeCachesInput where
  Caches : List (Option String)
  CacheSize : Option Int
deriving DecidableEq, Repr

/-- Request of `StartCaches`. -/
structure StartCachesInput where
  Caches : List (Option String)
deriving DecidableEq, Repr

/-- The attributes of the cache schema that the helper file reads. -/
structure CacheAttrs where
  description : String
  name : String
  auto_backup_time : Int
  size : Int
deriving DecidableEq, Repr

/-- The `*schema.ResourceData` of a cache: its ID, the attributes of the prior
state and the attributes of the desired configuration. -/
structure CacheResourceData where
  id : String
  state : CacheAttrs
  config : CacheAttrs
deriving DecidableEq, Repr

/-- Go `d.Get(key)`: the desired value of an attribute. -/
def CacheResourceData.Get {α : Type} (d : CacheResourceData) (key : CacheAttrs → α) : α :=
  key d.config

/-- Go `d.HasChange(key)`: the prior and the desired value differ. -/
def CacheResourceData.HasChange {α : Type} [DecidableEq α] (d : CacheResourceData)
    (key : CacheAttrs → α) : Bool :=
  decide (key d.state ≠ key d.config)

/-- The cache service of the SDK (`meta.(*QingCloudClient).cache`). -/
structure CacheService (σ : Type) where
  ModifyCacheAttributes : ModifyCacheAttributesInput → σ → Option Err × σ
  StopCaches : StopCachesInput → σ → Option Err × σ
  ResizeCaches : ResizeCachesInput → σ → Option Err × σ
  StartCaches : StartCachesInput → σ → Option Err × σ

/-- What the cache helper file needs from the rest of the package: the client
and the poller `CacheTransitionStateRefresh(clt, id)`, whose body is in another
file. -/
structure CacheMeta (σ : Type) where
  cache : CacheService σ
  CacheTransitionStateRefresh : CacheService σ → String → σ → Option Err × σ

/-- The operations the cache helper file issues. -/
inductive CacheOp
  | CacheTransitionStateRefresh (cacheID : String)
  | ModifyCacheAttributes (input : ModifyCacheAttributesInput)
  | StopCaches (input : StopCachesInput)
  | ResizeCaches (input : ResizeCachesInput)
  | StartCaches (input : StartCachesInput)
deriving DecidableEq, Repr

/-- One entry of the trace: the operation and the error it returned. -/
structure CacheEvent where
  op : CacheOp
  err : Option Err
deriving DecidableEq, Repr

/-- The outcome of running a function of the cache helper file. -/
structure CacheRun (σ : Type) where
  err : Option Err
  world : σ
  trace : List CacheEvent

/-- The mutating calls of the resize sequence. -/
def CacheOp.isMutating : CacheOp → Bool
  | .StopCaches _ => true
  | .ResizeCaches _ => true
  | .StartCaches _ => true
  | _ => false

/-- The polls of the resize sequence. -/
def CacheOp.isRefresh : CacheOp → Bool
  | .CacheTransitionStateRefresh _ => true
  | _ => false

/-- An operation of the `StopCaches` kind. -/
def CacheOp.isStop : CacheOp → Bool
  | .StopCaches _ => true
  | _ => false

/-- An operation of the `ResizeCaches` kind. -/
def CacheOp.isResize : CacheOp → Bool
  | .ResizeCaches _ => true
  | _ => false

/-- An operation of the `StartCaches` kind. -/
def CacheOp.isStart : CacheOp → Bool
  | .StartCaches _ => true
  | _ => false

/-! ## Cache helper: the two functions -/

/-- Go `modifyCacheAttributes(d, meta, create)`. -/
def modifyCacheAttributes {σ : Type} (m : CacheMeta σ) (d : CacheResourceData)
    (create : Bool) (w : σ) : CacheRun σ :=
  let clt := m.cache
  let input : ModifyCacheAttributesInput := ⟨some d.id, none, none, none⟩
  if create then
    if d.Get (·.description) = "" then
      ⟨none, w, []⟩
    else
      let input := { input with Description := some (d.Get (·.description)) }
      let r := clt.ModifyCacheAttributes input w
      ⟨r.1, r.2, [⟨.ModifyCacheAttributes input, r.1⟩]⟩
  else
    if (!d.HasChange (·.description) && !d.HasChange (·.name)
        && !d.HasChange (·.auto_backup_time)) then
      ⟨none, w, []⟩
    else
      let input :=
        if d.HasChange (·.description) then
          { input with Description := some (d.Get (·.description)) }
        else input
      let input :=
        if d.HasChange (·.name) then
          { input with CacheName := some (d.Get (·.name)) }
        else input
      let input :=
        if d.HasChange (·.auto_backup_time) then
          { input with AutoBackupTime := some (d.Get (·.auto_backup_time)) }
        else input
      let r := clt.ModifyCacheAttributes input w
      ⟨r.1, r.2, [⟨.ModifyCacheAttributes input, r.1⟩]⟩

/-- Go `resizeCache(d, meta)`. -/
def resizeCache {σ : Type} (m : CacheMeta σ) (d : CacheResourceData) (w : σ) : CacheRun σ :=
  let clt := m.cache
  let cacheID := d.id
  -- stop cache
  match m.CacheTransitionStateRefresh clt cacheID w with
  | (some err, w1) => ⟨some err, w1, [⟨.CacheTransitionStateRefresh cacheID, some err⟩]⟩
  | (none, w1) =>
  let t1 : List CacheEvent := [⟨.CacheTransitionStateRefresh cacheID, none⟩]
  let stopInput : StopCachesInput := ⟨[some cacheID]⟩
  match clt.StopCaches stopInput w1 with
  | (some err, w2) => ⟨some err, w2, t1 ++ [⟨.StopCaches stopInput, some err⟩]⟩
  | (none, w2) =>
  let t2 := t1 ++ [⟨.StopCaches stopInput, none⟩]
  -- resize cache
  match m.CacheTransitionStateRefresh clt cacheID w2 with
  | (some err, w3) =>
    ⟨some err, w3, t2 ++ [⟨.CacheTransitionStateRefresh cacheID, some err⟩]⟩
  | (none, w3) =>
  let t3 := t2 ++ [⟨.CacheTransitionStateRefresh cacheID, none⟩]
  let resizeInput : ResizeCachesInput := ⟨[some cacheID], some (d.Get (·.size))⟩
  match clt.ResizeCaches resizeInput w3 with
  | (some err, w4) => ⟨some err, w4, t3 ++ [⟨.ResizeCaches resizeInput, some err⟩]⟩
  | (none, w4) =>
  let t4 := t3 ++ [⟨.ResizeCaches resizeInput, none⟩]
  -- start cache
  match m.CacheTransitionStateRefresh clt cacheID w4 with
  | (some err, w5) =>
    ⟨some err, w5, t4 ++ [⟨.CacheTransitionStateRefresh cacheID, some err⟩]⟩
  | (none, w5) =>
  let t5 := t4 ++ [⟨.CacheTransitionStateRefresh cacheID, none⟩]
  let startInput : StartCachesInput := ⟨[some cacheID]⟩
  match clt.StartCaches startInput w5 with
  | (some err, w6) => ⟨some err, w6, t5 ++ [⟨.StartCaches startInput, some err⟩]⟩
  | (none, w6) =>
  let t6 := t5 ++ [⟨.StartCaches startInput, none⟩]
  match m.CacheTransitionStateRefresh clt cacheID w6 with
  | (some err, w7) =>
    ⟨some err, w7, t6 ++ [⟨.CacheTransitionStateRefresh cacheID, some err⟩]⟩
  | (none, w7) => ⟨none, w7, t6 ++ [⟨.CacheTransitionStateRefresh cacheID, none⟩]⟩

/-- Every call of the environment returns without error, in every world. -/
def CacheMeta.AllSucceed {σ : Type} (m : CacheMeta σ) : Prop :=
  (∀ id w, (m.CacheTransitionStateRefresh m.cache id w).1 = none) ∧
  (∀ i w, (m.cache.StopCaches i w).1 = none) ∧
  (∀ i w, (m.cache.ResizeCaches i w).1 = none) ∧
  (∀ i w, (m.cache.StartCaches i w).1 = none)

/-! ## Concrete cache environments -/

/-- A control plane on which every call succeeds; the world counts the calls. -/
def okCacheMeta : CacheMeta Nat where
  cache :=
    { ModifyCacheAttributes := fun _ n => (none, n + 1)
      StopCaches := fun _ n => (none, n + 1)
      ResizeCaches := fun _ n => (none, n + 1)
      StartCaches := fun _ n => (none, n + 1) }
  CacheTransitionStateRefresh := fun _ _ n => (none, n)

/-- A cache whose size is to grow from 1 to 2. -/
def sampleCache : CacheResourceData :=
  { id := "c-1", state := ⟨"", "redis", 0, 1⟩, config := ⟨"", "redis", 0, 2⟩ }

/-- A cache whose name alone is to change. -/
def renamedCache : CacheResourceData :=
  { id := "c-1", state := ⟨"", "redis", 0, 1⟩, config := ⟨"", "kv", 0, 1⟩ }

/-- A control plane whose mutating call number `k` (counted from 0 over the
whole life of the client) answers "Server Busy" and whose every other call
succeeds: a leg that is busy once and would succeed when invoked again. -/
def busyOnceCacheMeta (k : Nat) : CacheMeta Nat where
  cache :=
    { ModifyCacheAttributes := fun _ n => (none, n)
      StopCaches := fun _ n => (if n = k then some "Server Busy" else none, n + 1)
      ResizeCaches := fun _ n => (if n = k then some "Server Busy" else none, n + 1)
      StartCaches := fun _ n => (if n = k then some "Server Busy" else none, n + 1) }
  CacheTransitionStateRefresh := fun _ _ n => (none, n)

/-! ## Instance resource: data model -/

/-- Modelled from the spec: the constant `resourceName` is declared in another
file of the package; the attribute it names is `name`. -/
def resourceName : String := "name"

/-- Modelled from the spec: the constant `resourceDescription` is declared in
another file of the package; the attribute it names is `description`. -/
def resourceDescription : String := "description"

def resourceInstanceImageID : String := "image_id"
def resourceInstanceCPU : String := "cpu"
def resourceInstanceMemory : String := "memory"
def resourceInstanceClass : String := "instance_class"
def resourceInstanceManagedVxnetID : String := "managed_vxnet_id"
def resourceInstancePrivateIP : String := "private_ip"
def resourceInstanceKeyPairIDs : String := "keypair_ids"
def resourceInstanceSecurityGroupId : String := "security_group_id"
def resourceInstanceEipID : String := "eip_id"
def resourceInstanceVolumeIDs : String := "volume_ids"
def resourceInstancePublicIP : String := "public_ip"

/-- Go `qc.StringValue`: the pointee, or the empty string for `nil`. -/
def StringValue : Option String → String
  | some s => s
  | none => ""

/-- Go `qc.IntValue`: the pointee, or zero for `nil`. -/
def IntValue : Option Int → Int
  | some i => i
  | none => 0

/-- Go `qc.StringValueSlice`. -/
def StringValueSlice (l : List (Option String)) : List String :=
  l.map StringValue

/-- Request of `RunInstances`, restricted to the fields the provider fills. -/
structure RunInstancesInput where
  Count : Option Int
  InstanceName : Option String
  ImageID : Option String
  CPU : Option Int
  Memory : Option Int
  InstanceClass : Option Int
  SecurityGroup : Option String
  LoginMode : Option String
  LoginKeyPair : Option String
deriving DecidableEq, Repr

/-- Response of `RunInstances`. -/
structure RunInstancesOutput where
  Instances : List (Option String)
deriving DecidableEq, Repr

/-- Request of `DescribeInstances`. -/
structure DescribeInstancesInput where
  Instances : List (Option String)
  Verbose : Option Int
deriving DecidableEq, Repr

/-- Request of `TerminateInstances`. -/
structure TerminateInstancesInput where
  Instances : List (Option String)
deriving DecidableEq, Repr

/-- Response of `TerminateInstances`; the provider never reads it. -/
structure TerminateInstancesOutput where
  JobID : Option String
deriving DecidableEq, Repr

structure Image where
  ImageID : Option String
deriving DecidableEq, Repr

structure InstanceVxNet where
  VxNetType : Option Int
  VxNetID : Option String
  PrivateIP : Option String
deriving DecidableEq, Repr

structure EIP where
  EIPID : Option String
  EIPAddr : Option String
deriving DecidableEq, Repr

structure SecurityGroup where
  SecurityGroupID : Option String
deriving DecidableEq, Repr

structure Volume where
  VolumeID : Option String
deriving DecidableEq, Repr

structure Tag where
  TagID : Option String
  TagName : Option String
deriving DecidableEq, Repr

/-- The SDK's `Instance`, restricted to the fields the provider reads. Pointer
fields and pointer elements of slices are options; `KeyPairIDs` and `Volumes`
are options because the provider tests the slices against `nil`. -/
structure Instance where
  InstanceName : Option String
  Description : Option String
  Status : Option String
  Image : Option Image
  VCPUsCurrent : Option Int
  MemoryCurrent : Option Int
  InstanceClass : Option Int
  VxNets : List (Option InstanceVxNet)
  EIP : Option EIP
  SecurityGroup : Option SecurityGroup
  KeyPairIDs : Option (List (Option String))
  Volumes : Option (List (Option Volume))
  Tags : List (Option Tag)
deriving DecidableEq, Repr

/-- Response of `DescribeInstances`. -/
structure DescribeInstancesOutput where
  InstanceSet : List (Option Instance)
deriving DecidableEq, Repr

/-- The attributes of the instance schema, with the value `d.Get` returns and
`d.Set` overwrites; a set attribute is held as the list its `List()` returns. -/
structure InstanceAttrs where
  name : String
  description : String
  image_id : String
  cpu : Int
  memory : Int
  instance_class : Int
  managed_vxnet_id : String
  private_ip : String
  keypair_ids : List String
  security_group_id : String
  eip_id : String
  volume_ids : List String
  public_ip : String
  tag_ids : List String
  tag_names : List String
deriving DecidableEq, Repr

/-- The `*schema.ResourceData` of an instance: the ID (`SetId`/`Id`), the
partial-state mode and its map of keys (`Partial`/`SetPartial`), and the
attributes. An empty ID is an unset ID. -/
structure ResourceData where
  id : String
  partialMode : Bool
  partialKeys : List String
  attrs : InstanceAttrs
deriving DecidableEq, Repr

/-- Go `d.SetId(v)`. -/
def ResourceData.SetId (d : ResourceData) (v : String) : ResourceData :=
  { d with id := v }

/-- Go `d.Partial(enable)`: switching the mode off drops the map of keys. -/
def ResourceData.Partial (d : ResourceData) (enable : Bool) : ResourceData :=
  if enable then { d with partialMode := true }
  else { d with partialMode := false, partialKeys := [] }

/-- Go `d.SetPartial(k)`: in partial mode, adds `k` to the map of keys. -/
def ResourceData.SetPartial (d : ResourceData) (k : String) : ResourceData :=
  if d.partialMode then
    { d with partialKeys := if k ∈ d.partialKeys then d.partialKeys else d.partialKeys ++ [k] }
  else d

/-- Go `d.Set(key, value)` on an attribute. -/
def ResourceData.Set (d : ResourceData) (f : InstanceAttrs → InstanceAttrs) : ResourceData :=
  { d with attrs := f d.attrs }

/-- The instance service of the SDK (`meta.(*QingCloudClient).instance`). -/
structure InstanceService (σ : Type) where
  RunInstances : RunInstancesInput → σ → Except Err RunInstancesOutput × σ
  DescribeInstances : DescribeInstancesInput → σ → Except Err DescribeInstancesOutput × σ
  TerminateInstances : TerminateInstancesInput → σ → Except Err TerminateInstancesOutput × σ

/-- What a helper whose body is in another file reports: the error it returns,
the world it leaves and the number of remote calls it issued. -/
structure Outcome (σ : Type) where
  err : Option Err
  world : σ
  calls : Nat

/-- What the instance file needs from the rest of the package: the client, the
retry policy's bound and error classifier, and the helpers whose bodies are in
other files. The helpers read the resource data and act on the remote world. -/
structure InstanceMeta (σ : Type) where
  instance_ : InstanceService σ
  /-- number of further attempts `simpleRetry` makes after the first -/
  retries : Nat
  /-- the classifier behind `isServerBusy` -/
  busy : Err → Bool
  InstanceTransitionStateRefresh : InstanceService σ → String → σ → Outcome σ
  waitInstanceLease : ResourceData → σ → Outcome σ
  modifyInstanceAttributes : ResourceData → σ → Outcome σ
  instanceUpdateChangeManagedVxNet : ResourceData → σ → Outcome σ
  instanceUpdateChangeSecurityGroup : ResourceData → σ → Outcome σ
  instanceUpdateChangeEip : ResourceData → σ → Outcome σ
  instanceUpdateChangeKeyPairs : ResourceData → σ → Outcome σ
  updateInstanceVolume : ResourceData → σ → Outcome σ
  instanceUpdateResize : ResourceData → σ → Outcome σ
  resourceUpdateTag : ResourceData → σ → Outcome σ
  isInstanceDeleted : List (Option Instance) → Bool
  getNamePointer : ResourceData → Option String
  getSetStringPointer : ResourceData → String → Option String
  resourceSetTag : InstanceAttrs → List (Option Tag) → InstanceAttrs

/-- The operations the instance file issues: the three SDK calls, the poller,
and the nine sub-steps of the update. -/
inductive Op
  | RunInstances (input : RunInstancesInput)
  | DescribeInstances (input : DescribeInstancesInput)
  | TerminateInstances (input : TerminateInstancesInput)
  | InstanceTransitionStateRefresh (id : String)
  | waitInstanceLease
  | modifyInstanceAttributes
  | instanceUpdateChangeManagedVxNet
  | instanceUpdateChangeSecurityGroup
  | instanceUpdateChangeEip
  | instanceUpdateChangeKeyPairs
  | updateInstanceVolume
  | instanceUpdateResize
  | resourceUpdateTag
deriving DecidableEq, Repr

/-- One entry of the trace: the operation, the error it returned and the number
of remote calls it stands for (one for an SDK call, the helper's own count for
a helper). -/
structure Event where
  op : Op
  err : Option Err
  calls : Nat
deriving DecidableEq, Repr

/-- What a Go function of the instance file does: it returns nil, returns an
error, or panics (index out of range, nil dereference). -/
inductive Ret
  | nil
  | error (e : Err)
  | panic
deriving DecidableEq, Repr

/-- The outcome of running a function of the instance file. -/
structure Run (σ : Type) where
  ret : Ret
  d : ResourceData
  world : σ
  trace : List Event

/-- The total number of remote calls a trace stands for. -/
def remoteCalls (t : List Event) : Nat :=
  (t.map (·.calls)).sum

/-- An SDK call of the `TerminateInstances` kind. -/
def Op.isTerminate : Op → Bool
  | .TerminateInstances _ => true
  | _ => false

/-- An SDK call of the `DescribeInstances` kind. -/
def Op.isDescribe : Op → Bool
  | .DescribeInstances _ => true
  | _ => false

/-- An SDK call of the `RunInstances` kind. -/
def Op.isRun : Op → Bool
  | .RunInstances _ => true
  | _ => false

/-! ## Retry policy -/

/-- What `isServerBusy` hands to `simpleRetry`: the error and whether it is a
transient-busy one. -/
structure RetryError where
  err : Err
  retryable : Bool
deriving DecidableEq, Repr

/-- Modelled from the spec: `isServerBusy` is defined in another file. It
classifies an error as transient-busy or permanent (`isTransientBusy`) and
lets nil through. -/
def isServerBusy (busy : Err → Bool) : Option Err → Option RetryError
  | none => none
  | some e => some ⟨e, busy e⟩

/-- Modelled from the spec: `simpleRetry` is defined in another file. It invokes
the operation; a transient-busy failure is retried, up to the maximum attempt
count (here `retries + 1`); any other error is returned at once, unmodified;
when the attempts are exhausted the last transient error is returned wrapped.
The operation is a closure over the state `S` of its captured variables. -/
def simpleRetry {S : Type} (f : S → Option RetryError × S) : Nat → S → Option Err × S
  | 0, s =>
    match f s with
    | (none, s1) => (none, s1)
    | (some r, s1) => (some (if r.retryable then "retry-exhausted: " ++ r.err else r.err), s1)
  | retries + 1, s =>
    match f s with
    | (none, s1) => (none, s1)
    | (some r, s1) => if r.retryable then simpleRetry f retries s1 else (some r.err, s1)

/-- The variables a retried closure of the instance file captures and assigns
(`output`, `err`), with the world and the trace. -/
structure CallVars (O σ : Type) where
  output : Option O
  err : Option Err
  world : σ
  trace : List Event

/-- The closure `func() error { output, err = clt.Call(input); return
isServerBusy(err) }` that create, read and delete hand to `simpleRetry`. -/
def retryClosure {O σ : Type} (busy : Err → Bool) (op : Op) (call : σ → Except Err O × σ)
    (s : CallVars O σ) : Option RetryError × CallVars O σ :=
  match call s.world with
  | (.ok out, w1) =>
    (isServerBusy busy none, ⟨some out, none, w1, s.trace ++ [⟨op, none, 1⟩]⟩)
  | (.error e, w1) =>
    (isServerBusy busy (some e), ⟨none, some e, w1, s.trace ++ [⟨op, some e, 1⟩]⟩)

/-- The block `var output; var err; simpleRetry(func() error {...})`: the
captured variables after `simpleRetry` returns (its own result is dropped). -/
def retried {O σ : Type} (m : InstanceMeta σ) (op : Op) (call : σ → Except Err O × σ)
    (w : σ) : CallVars O σ :=
  (simpleRetry (retryClosure m.busy op call) m.retries ⟨none, none, w, []⟩).2


/-! ## Instance resource: read -/

/-- The loop `for _, vxnet := range instance.VxNets` of the read (lines 169-179).
The flag is set when a nil element is dereferenced. -/
def setManagedVxnet : List (Option InstanceVxNet) → InstanceAttrs → InstanceAttrs × Bool
  | [], a => (a, false)
  | none :: _, a => (a, true)
  | some vxnet :: rest, a =>
    if IntValue vxnet.VxNetType ≠ 0 then
      if IntValue vxnet.VxNetType = 1 then
        setManagedVxnet rest
          { a with managed_vxnet_id := StringValue vxnet.VxNetID,
                   private_ip := StringValue vxnet.PrivateIP }
      else
        setManagedVxnet rest
          { a with managed_vxnet_id := "vxnet-0",
                   private_ip := StringValue vxnet.PrivateIP }
    else setManagedVxnet rest a

/-- The loop `for _, volume := range instance.Volumes` of the read (lines
192-194), appending to `volumeIDs`; `none` when a nil element is dereferenced. -/
def collectVolumeIDs : List (Option Volume) → List String → Option (List String)
  | [], volumeIDs => some volumeIDs
  | none :: _, _ => none
  | some volume :: rest, volumeIDs =>
    collectVolumeIDs rest (volumeIDs ++ [StringValue volume.VolumeID])

/-- The tail of the read (lines 162-197): the writes of the described instance
into the attributes. The flag is set when the code panics on a nil pointer; the
attributes are then those written so far. -/
def setInstanceAttrs (resourceSetTag : InstanceAttrs → List (Option Tag) → InstanceAttrs)
    (inst : Instance) (a : InstanceAttrs) : InstanceAttrs × Bool :=
  let a := { a with name := StringValue inst.InstanceName }
  let a := { a with description := StringValue inst.Description }
  match inst.Image with
  | none => (a, true)
  | some image =>
  let a := { a with image_id := StringValue image.ImageID }
  let a := { a with cpu := IntValue inst.VCPUsCurrent }
  let a := { a with memory := IntValue inst.MemoryCurrent }
  let a := { a with instance_class := IntValue inst.InstanceClass }
  -- set managed vxnet
  match setManagedVxnet inst.VxNets a with
  | (a, true) => (a, true)
  | (a, false) =>
  let a :=
    match inst.EIP with
    | some eip => { a with eip_id := StringValue eip.EIPID, public_ip := StringValue eip.EIPAddr }
    | none => a
  let a :=
    match inst.SecurityGroup with
    | some sg => { a with security_group_id := StringValue sg.SecurityGroupID }
    | none => a
  let a :=
    match inst.KeyPairIDs with
    | some ids => { a with keypair_ids := StringValueSlice ids }
    | none => a
  match inst.Volumes with
  | none => (resourceSetTag a inst.Tags, false)
  | some volumes =>
    match collectVolumeIDs volumes [] with
    | none => (a, true)
    | some volumeIDs => (resourceSetTag { a with volume_ids := volumeIDs } inst.Tags, false)

/-- Go `resourceQingcloudInstanceRead(d, meta)`. -/
def resourceQingcloudInstanceRead {σ : Type} (m : InstanceMeta σ) (d : ResourceData)
    (w : σ) : Run σ :=
  let clt := m.instance_
  let input : DescribeInstancesInput := ⟨[some d.id], some 1⟩
  let s := retried m (.DescribeInstances input) (clt.DescribeInstances input) w
  match s.err, s.output with
  | some err, _ => ⟨.error err, d, s.world, s.trace⟩
  | none, none => ⟨.panic, d, s.world, s.trace⟩
  | none, some output =>
    if m.isInstanceDeleted output.InstanceSet then
      ⟨.nil, d.SetId "", s.world, s.trace⟩
    else
      match output.InstanceSet with
      | [] => ⟨.panic, d, s.world, s.trace⟩
      | none :: _ => ⟨.panic, d, s.world, s.trace⟩
      | some inst :: _ =>
        match setInstanceAttrs m.resourceSetTag inst d.attrs with
        | (a, true) => ⟨.panic, d.Set (fun _ => a), s.world, s.trace⟩
        | (a, false) => ⟨.nil, d.Set (fun _ => a), s.world, s.trace⟩

/-! ## Instance resource: update -/

/-- The event of a helper invocation. -/
def Outcome.event {σ : Type} (o : Outcome σ) (op : Op) : Event :=
  ⟨op, o.err, o.calls⟩

/-- Go `resourceQingcloudInstanceUpdate(d, meta)`. -/
def resourceQingcloudInstanceUpdate {σ : Type} (m : InstanceMeta σ) (d : ResourceData)
    (w : σ) : Run σ :=
  let d := d.Partial true
  let o := m.waitInstanceLease d w
  let t := [o.event .waitInstanceLease]
  match o.err with
  | some err => ⟨.error err, d, o.world, t⟩
  | none =>
  let o := m.modifyInstanceAttributes d o.world
  let t := t ++ [o.event .modifyInstanceAttributes]
  match o.err with
  | some err => ⟨.error err, d, o.world, t⟩
  | none =>
  let d := d.SetPartial resourceName
  let d := d.SetPartial resourceDescription
  -- change vxnet
  let o := m.instanceUpdateChangeManagedVxNet d o.world
  let t := t ++ [o.event .instanceUpdateChangeManagedVxNet]
  match o.err with
  | some err => ⟨.error err, d, o.world, t⟩
  | none =>
  let d := d.SetPartial resourceInstanceManagedVxnetID
  let d := d.SetPartial resourceInstancePrivateIP
  -- change security_group
  let o := m.instanceUpdateChangeSecurityGroup d o.world
  let t := t ++ [o.event .instanceUpdateChangeSecurityGroup]
  match o.err with
  | some err => ⟨.error err, d, o.world, t⟩
  | none =>
  let d := d.SetPartial resourceInstanceSecurityGroupId
  -- change eip
  let o := m.instanceUpdateChangeEip d o.world
  let t := t ++ [o.event .instanceUpdateChangeEip]
  match o.err with
  | some err => ⟨.error err, d, o.world, t⟩
  | none =>
  let d := d.SetPartial resourceInstanceEipID
  -- change keypairs
  let o := m.instanceUpdateChangeKeyPairs d o.world
  let t := t ++ [o.event .instanceUpdateChangeKeyPairs]
  match o.err with
  | some err => ⟨.error err, d, o.world, t⟩
  | none =>
  let d := d.SetPartial resourceInstanceKeyPairIDs
  -- change volumes
  let o := m.updateInstanceVolume d o.world
  let t := t ++ [o.event .updateInstanceVolume]
  match o.err with
  | some err => ⟨.error err, d, o.world, t⟩
  | none =>
  let d := d.SetPartial resourceInstanceVolumeIDs
  -- resize instance
  let o := m.instanceUpdateResize d o.world
  let t := t ++ [o.event .instanceUpdateResize]
  match o.err with
  | some err => ⟨.error err, d, o.world, t⟩
  | none =>
  let d := d.SetPartial resourceInstanceCPU
  let d := d.SetPartial resourceInstanceMemory
  let o := m.resourceUpdateTag d o.world
  let t := t ++ [o.event .resourceUpdateTag]
  match o.err with
  | some err => ⟨.error err, d, o.world, t⟩
  | none =>
  let d := d.Partial false
  let r := resourceQingcloudInstanceRead m d o.world
  ⟨r.ret, r.d, r.world, t ++ r.trace⟩

/-! ## Instance resource: create and delete -/

/-- Go `resourceQingcloudInstanceCreate(d, meta)`. -/
def resourceQingcloudInstanceCreate {σ : Type} (m : InstanceMeta σ) (d : ResourceData)
    (w : σ) : Run σ :=
  let clt := m.instance_
  let input : RunInstancesInput :=
    { Count := some 1
      InstanceName := m.getNamePointer d
      ImageID := m.getSetStringPointer d resourceInstanceImageID
      CPU := some d.attrs.cpu
      Memory := some d.attrs.memory
      InstanceClass := some d.attrs.instance_class
      SecurityGroup := m.getSetStringPointer d resourceInstanceSecurityGroupId
      LoginMode := some "keypair"
      LoginKeyPair := none }
  let kps := d.attrs.keypair_ids
  match kps with
  | [] => ⟨.error "KeyPair Required", d, w, []⟩
  | kp :: _ =>
  let input := { input with LoginKeyPair := some kp }
  let s := retried m (.RunInstances input) (clt.RunInstances input) w
  match s.err, s.output with
  | some err, _ => ⟨.error err, d, s.world, s.trace⟩
  | none, none => ⟨.panic, d, s.world, s.trace⟩
  | none, some output =>
    match output.Instances with
    | [] => ⟨.panic, d, s.world, s.trace⟩
    | first :: _ =>
      let d := d.SetId (StringValue first)
      let o := m.InstanceTransitionStateRefresh clt d.id s.world
      let t := s.trace ++ [o.event (.InstanceTransitionStateRefresh d.id)]
      match o.err with
      | some err => ⟨.error err, d, o.world, t⟩
      | none =>
        let r := resourceQingcloudInstanceUpdate m d o.world
        ⟨r.ret, r.d, r.world, t ++ r.trace⟩

/-- Go `resourceQingcloudInstanceDelete(d, meta)`. -/
def resourceQingcloudInstanceDelete {σ : Type} (m : InstanceMeta σ) (d : ResourceData)
    (w : σ) : Run σ :=
  let o := m.waitInstanceLease d w
  let t := [o.event .waitInstanceLease]
  match o.err with
  | some err => ⟨.error err, d, o.world, t⟩
  | none =>
  let clt := m.instance_
  let input : TerminateInstancesInput := ⟨[some d.id]⟩
  let s := retried m (.TerminateInstances input) (clt.TerminateInstances input) o.world
  let t := t ++ s.trace
  match s.err with
  | some err => ⟨.error err, d, s.world, t⟩
  | none =>
  let o := m.InstanceTransitionStateRefresh clt d.id s.world
  let t := t ++ [o.event (.InstanceTransitionStateRefresh d.id)]
  match o.err with
  | some err => ⟨.error err, d, o.world, t⟩
  | none => ⟨.nil, d.SetId "", o.world, t⟩


/-- A retry-wrapped SDK call as it shows in a trace: at least one and at most
`retries + 1` invocations of the same call, every one but the last failed with
a transient-busy error, and the last returned `final`. -/
def RetriedCall {σ : Type} (m : InstanceMeta σ) (op : Op) (evs : List Event)
    (final : Option Err) : Prop :=
  evs ≠ [] ∧ evs.length ≤ m.retries + 1 ∧
  (∀ ev ∈ evs, ev.op = op ∧ ev.calls = 1) ∧
  (∀ ev ∈ evs.dropLast, ∃ e, ev.err = some e ∧ m.busy e = true) ∧
  evs.getLast?.map (·.err) = some final

/-! ## The update plan, for stating the theorems -/

/-- The sub-steps of the update, in the order of the source. -/
def updateSteps : List Op :=
  [.waitInstanceLease, .modifyInstanceAttributes, .instanceUpdateChangeManagedVxNet,
   .instanceUpdateChangeSecurityGroup, .instanceUpdateChangeEip,
   .instanceUpdateChangeKeyPairs, .updateInstanceVolume, .instanceUpdateResize,
   .resourceUpdateTag]

/-- The keys that belong to a sub-step of the update: those the source marks
with `SetPartial` right after the step has returned nil. -/
def stepKeys : Op → List String
  | .modifyInstanceAttributes => [resourceName, resourceDescription]
  | .instanceUpdateChangeManagedVxNet =>
    [resourceInstanceManagedVxnetID, resourceInstancePrivateIP]
  | .instanceUpdateChangeSecurityGroup => [resourceInstanceSecurityGroupId]
  | .instanceUpdateChangeEip => [resourceInstanceEipID]
  | .instanceUpdateChangeKeyPairs => [resourceInstanceKeyPairIDs]
  | .updateInstanceVolume => [resourceInstanceVolumeIDs]
  | .instanceUpdateResize => [resourceInstanceCPU, resourceInstanceMemory]
  | _ => []

/-- The keys of the first `k` sub-steps of the update. -/
def appliedKeys (k : Nat) : List String :=
  (updateSteps.take k).foldr (fun op keys => stepKeys op ++ keys) []

/-- An event is the invocation of a sub-step of the update. -/
def Op.isStep (op : Op) : Bool :=
  decide (op ∈ updateSteps)

/-- The request the create sends for the key pair `kp` (lines 112-126). -/
def createInput {σ : Type} (m : InstanceMeta σ) (d : ResourceData) (kp : String) :
    RunInstancesInput :=
  { Count := some 1
    InstanceName := m.getNamePointer d
    ImageID := m.getSetStringPointer d resourceInstanceImageID
    CPU := some d.attrs.cpu
    Memory := some d.attrs.memory
    InstanceClass := some d.attrs.instance_class
    SecurityGroup := m.getSetStringPointer d resourceInstanceSecurityGroupId
    LoginMode := some "keypair"
    LoginKeyPair := some kp }

/-! ## Concrete instance environments -/

/-- The instance the sample control plane describes for a live ID. -/
def liveInstance : Instance :=
  { InstanceName := some "web", Description := none, Status := some "running",
    Image := some ⟨some "img-1"⟩, VCPUsCurrent := some 1, MemoryCurrent := some 1024,
    InstanceClass := some 0, VxNets := [some ⟨some 1, some "vxnet-1", some "10.0.0.2"⟩],
    EIP := none, SecurityGroup := some ⟨some "sg-1"⟩, KeyPairIDs := some [some "kp-1"],
    Volumes := none, Tags := [] }

/-- A small control plane. The world is the list of the IDs of the instances
that exist remotely. `RunInstances` launches `i-new`, which stays alive when
`keep` is set and has ceased by the time it is described otherwise;
`TerminateInstances` rejects an ID that does not exist; a sub-step of the
update issues no call and returns `failing op`. -/
def cloud (keep : Bool) (failing : Op → Option Err) : InstanceMeta (List String) where
  instance_ :=
    { RunInstances := fun _ live =>
        (.ok ⟨[some "i-new"]⟩, if keep then "i-new" :: live else live)
      DescribeInstances := fun input live =>
        (.ok ⟨(input.Instances.filter (fun i => decide (StringValue i ∈ live))).map
          (fun _ => some liveInstance)⟩, live)
      TerminateInstances := fun input live =>
        if input.Instances.all (fun i => decide (StringValue i ∈ live)) then
          (.ok ⟨some "j-1"⟩, live.filter (fun i => decide (some i ∉ input.Instances)))
        else (.error "ResourceNotFound", live) }
  retries := 2
  busy := fun e => decide (e = "Server Busy")
  InstanceTransitionStateRefresh := fun _ _ live => ⟨none, live, 1⟩
  waitInstanceLease := fun _ live => ⟨failing .waitInstanceLease, live, 0⟩
  modifyInstanceAttributes := fun _ live => ⟨failing .modifyInstanceAttributes, live, 0⟩
  instanceUpdateChangeManagedVxNet := fun _ live =>
    ⟨failing .instanceUpdateChangeManagedVxNet, live, 0⟩
  instanceUpdateChangeSecurityGroup := fun _ live =>
    ⟨failing .instanceUpdateChangeSecurityGroup, live, 0⟩
  instanceUpdateChangeEip := fun _ live => ⟨failing .instanceUpdateChangeEip, live, 0⟩
  instanceUpdateChangeKeyPairs := fun _ live => ⟨failing .instanceUpdateChangeKeyPairs, live, 0⟩
  updateInstanceVolume := fun _ live => ⟨failing .updateInstanceVolume, live, 0⟩
  instanceUpdateResize := fun _ live => ⟨failing .instanceUpdateResize, live, 0⟩
  resourceUpdateTag := fun _ live => ⟨failing .resourceUpdateTag, live, 0⟩
  isInstanceDeleted := fun set =>
    match set with
    | [] => true
    | none :: _ => true
    | some inst :: _ =>
      decide (StringValue inst.Status = "terminated" ∨ StringValue inst.Status = "ceased")
  getNamePointer := fun d => some d.attrs.name
  getSetStringPointer := fun d key =>
    if key = resourceInstanceImageID then some d.attrs.image_id
    else if key = resourceInstanceSecurityGroupId then some d.attrs.security_group_id
    else none
  resourceSetTag := fun a tags =>
    { a with tag_ids := tags.map (fun t => StringValue (t.bind (·.TagID))),
             tag_names := tags.map (fun t => StringValue (t.bind (·.TagName))) }

/-- No sub-step fails. -/
def noFailure : Op → Option Err := fun _ => none

/-- The change of the EIP fails. -/
def eipFailure : Op → Option Err := fun op =>
  if op = .instanceUpdateChangeEip then some "eip not found" else none

/-- The attributes of the sample instance, with one key pair. -/
def sampleAttrs : InstanceAttrs :=
  { name := "web", description := "", image_id := "img-1", cpu := 1, memory := 1024,
    instance_class := 0, managed_vxnet_id := "vxnet-1", private_ip := "10.0.0.2",
    keypair_ids := ["kp-1"], security_group_id := "sg-1", eip_id := "", volume_ids := [],
    public_ip := "", tag_ids := [], tag_names := [] }

/-- The resource data of an instance not yet created. -/
def freshData : ResourceData :=
  { id := "", partialMode := false, partialKeys := [], attrs := sampleAttrs }

/-- The resource data of the instance `i-1`, equal to what is described. -/
def existingData : ResourceData :=
  { id := "i-1", partialMode := false, partialKeys := [], attrs := sampleAttrs }

/-- The resource data after the update has switched partial mode on and marked
the keys of its first `k` sub-steps. -/
def markApplied (d : ResourceData) (k : Nat) : ResourceData :=
  (appliedKeys k).foldl ResourceData.SetPartial (d.Partial true)

/-- The operation and the error of an event. -/
def Event.opErr (ev : Event) : Op × Option Err :=
  (ev.op, ev.err)

/-- The resource data of an instance to create without a key pair. -/
def noKeyData : ResourceData :=
  { freshData with attrs := { sampleAttrs with keypair_ids := [] } }

/-- The helper of the environment that runs a sub-step of the update. -/
def InstanceMeta.step {σ : Type} (m : InstanceMeta σ) : Op → ResourceData → σ → Outcome σ
  | .waitInstanceLease => m.waitInstanceLease
  | .modifyInstanceAttributes => m.modifyInstanceAttributes
  | .instanceUpdateChangeManagedVxNet => m.instanceUpdateChangeManagedVxNet
  | .instanceUpdateChangeSecurityGroup => m.instanceUpdateChangeSecurityGroup
  | .instanceUpdateChangeEip => m.instanceUpdateChangeEip
  | .instanceUpdateChangeKeyPairs => m.instanceUpdateChangeKeyPairs
  | .updateInstanceVolume => m.updateInstanceVolume
  | .instanceUpdateResize => m.instanceUpdateResize
  | .resourceUpdateTag => m.resourceUpdateTag
  | _ => fun _ w => ⟨none, w, 0⟩

/-- The world the given sub-steps leave when they run in order, each on the data
with the keys of the earlier ones marked, and all return nil; `none` when one of
them returns an error. -/
def stepsWorld {σ : Type} (m : InstanceMeta σ) : List Op → ResourceData → σ → Option σ
  | [], _, w => some w
  | op :: ops, d, w =>
    match (m.step op d w).err with
    | some _ => none
    | none =>
      stepsWorld m ops ((stepKeys op).foldl ResourceData.SetPartial d) (m.step op d w).world

/-- The world in which the read that ends the update runs: the one the nine
sub-steps leave when all return nil; `none` when a sub-step fails, and the read
does not run. -/
def worldAfterSteps {σ : Type} (m : InstanceMeta σ) (d : ResourceData) (w : σ) : Option σ :=
  stepsWorld m updateSteps (d.Partial true) w

/-- The read of the instance `id` in the world `w` finds the instance deleted:
its retry-wrapped `DescribeInstances` ends without error and `isInstanceDeleted`
holds of the described set (lines 150-157). -/
def readFindsDeleted {σ : Type} (m : InstanceMeta σ) (id : String) (w : σ) : Bool :=
  let s := retried m (.DescribeInstances ⟨[some id], some 1⟩)
    (m.instance_.DescribeInstances ⟨[some id], some 1⟩) w
  match s.err, s.output with
  | none, some output => m.isInstanceDeleted output.InstanceSet
  | _, _ => false

/-- The update runs its nine sub-steps without error and its final read finds
the instance deleted. -/
def updateFindsDeleted {σ : Type} (m : InstanceMeta σ) (d : ResourceData) (w : σ) : Bool :=
  match worldAfterSteps m d w with
  | some w1 => readFindsDeleted m d.id w1
  | none => false

/-- The create, whose provisioning returned `first` as its first instance ID,
passes the await, runs the nine sub-steps of the update without error, and the
final read finds the instance deleted. -/
def createFindsDeleted {σ : Type} (m : InstanceMeta σ) (d : ResourceData) (w : σ)
    (kp : String) (first : Option String) : Bool :=
  let s := retried m (.RunInstances (createInput m d kp))
    (m.instance_.RunInstances (createInput m d kp)) w
  let o := m.InstanceTransitionStateRefresh m.instance_ (StringValue first) s.world
  match o.err with
  | some _ => false
  | none => updateFindsDeleted m (d.SetId (StringValue first)) o.world

/-! ## Theorems: cache helper -/

/-- Every run of `resizeCache` has one of eight shapes: the seven operations in
order, cut after the first one that fails. -/
theorem resizeCache_shape {σ : Type} (m : CacheMeta σ) (d : CacheResourceData) (w : σ) :
    let r := resizeCache m d w
    let rf : Option Err → CacheEvent := fun e => ⟨.CacheTransitionStateRefresh d.id, e⟩
    let stop : Option Err → CacheEvent := fun e => ⟨.StopCaches ⟨[some d.id]⟩, e⟩
    let rsz : Option Err → CacheEvent :=
      fun e => ⟨.ResizeCaches ⟨[some d.id], some d.config.size⟩, e⟩
    let start : Option Err → CacheEvent := fun e => ⟨.StartCaches ⟨[some d.id]⟩, e⟩
    (∃ e, r.err = some e ∧ r.trace = [rf (some e)]) ∨
    (∃ e, r.err = some e ∧ r.trace = [rf none, stop (some e)]) ∨
    (∃ e, r.err = some e ∧ r.trace = [rf none, stop none, rf (some e)]) ∨
    (∃ e, r.err = some e ∧ r.trace = [rf none, stop none, rf none, rsz (some e)]) ∨
    (∃ e, r.err = some e ∧ r.trace = [rf none, stop none, rf none, rsz none, rf (some e)]) ∨
    (∃ e, r.err = some e ∧
      r.trace = [rf none, stop none, rf none, rsz none, rf none, start (some e)]) ∨
    (∃ e, r.err = some e ∧
      r.trace = [rf none, stop none, rf none, rsz none, rf none, start none, rf (some e)]) ∨
    (r.err = none ∧
      r.trace = [rf none, stop none, rf none, rsz none, rf none, start none, rf none]) := by
  intro r rf stop rsz start
  simp only [r, rf, stop, rsz, start, resizeCache, CacheResourceData.Get]
  rcases h1 : m.CacheTransitionStateRefresh m.cache d.id w with ⟨_ | e1, w1⟩
  swap
  · simp
  rcases h2 : m.cache.StopCaches ⟨[some d.id]⟩ w1 with ⟨_ | e2, w2⟩
  swap
  · simp [h2]
  rcases h3 : m.CacheTransitionStateRefresh m.cache d.id w2 with ⟨_ | e3, w3⟩
  swap
  · simp [h2, h3]
  rcases h4 : m.cache.ResizeCaches ⟨[some d.id], some d.config.size⟩ w3 with ⟨_ | e4, w4⟩
  swap
  · simp [h2, h3, h4]
  rcases h5 : m.CacheTransitionStateRefresh m.cache d.id w4 with ⟨_ | e5, w5⟩
  swap
  · simp [h2, h3, h4, h5]
  rcases h6 : m.cache.StartCaches ⟨[some d.id]⟩ w5 with ⟨_ | e6, w6⟩
  swap
  · simp [h2, h3, h4, h5, h6]
  rcases h7 : m.CacheTransitionStateRefresh m.cache d.id w6 with ⟨_ | e7, w7⟩
  swap
  · simp [h2, h3, h4, h5, h6, h7]
  simp [h2, h3, h4, h5, h6, h7]

/-- C1, as stated, fails: on a control plane where every call succeeds the
trace of `resizeCache` is not the six operations stop, await, resize, await,
start, await; it has seven entries and opens with an await. -/
theorem resizeCache_six_ops_refuted :
    okCacheMeta.AllSucceed ∧
    (¬ ∃ s rz st id,
      (resizeCache okCacheMeta sampleCache 0).trace.map (·.op) =
        [.StopCaches s, .CacheTransitionStateRefresh id, .ResizeCaches rz,
         .CacheTransitionStateRefresh id, .StartCaches st,
         .CacheTransitionStateRefresh id]) ∧
    (resizeCache okCacheMeta sampleCache 0).trace.length = 7 ∧
    (resizeCache okCacheMeta sampleCache 0).trace.head? =
      some ⟨.CacheTransitionStateRefresh "c-1", none⟩ := by
  refine ⟨⟨?_, ?_, ?_, ?_⟩, ?_, ?_, ?_⟩ <;>
    simp [resizeCache, okCacheMeta, sampleCache]

/-- C1, amended: when every call succeeds, `resizeCache` returns nil and issues
exactly seven operations: await, stop, await, resize, await, start, await, each
await one call of `CacheTransitionStateRefresh` on the cache ID, the stop and
the start carrying the cache ID and the resize the cache ID and the desired
size. -/
theorem resizeCache_trace_of_success {σ : Type} (m : CacheMeta σ) (d : CacheResourceData)
    (w : σ) (h : m.AllSucceed) :
    (resizeCache m d w).err = none ∧
    (resizeCache m d w).trace =
      [⟨.CacheTransitionStateRefresh d.id, none⟩,
       ⟨.StopCaches ⟨[some d.id]⟩, none⟩,
       ⟨.CacheTransitionStateRefresh d.id, none⟩,
       ⟨.ResizeCaches ⟨[some d.id], some d.config.size⟩, none⟩,
       ⟨.CacheTransitionStateRefresh d.id, none⟩,
       ⟨.StartCaches ⟨[some d.id]⟩, none⟩,
       ⟨.CacheTransitionStateRefresh d.id, none⟩] := by
  obtain ⟨hr, hs, hz, ht⟩ := h
  have key : ∀ (p : Option Err × σ), p.1 = none → p = (none, p.2) := by
    rintro ⟨a, b⟩ hp
    simp_all
  have e1 := key _ (hr d.id w)
  have e2 := key _ (hs ⟨[some d.id]⟩ (m.CacheTransitionStateRefresh m.cache d.id w).2)
  have e3 := key _ (hr d.id (m.cache.StopCaches ⟨[some d.id]⟩
    (m.CacheTransitionStateRefresh m.cache d.id w).2).2)
  generalize (m.CacheTransitionStateRefresh m.cache d.id w).2 = w1 at e1 e2 e3
  generalize (m.cache.StopCaches ⟨[some d.id]⟩ w1).2 = w2 at e2 e3
  generalize (m.CacheTransitionStateRefresh m.cache d.id w2).2 = w3 at e3
  have e4 := key _ (hz ⟨[some d.id], some d.config.size⟩ w3)
  generalize (m.cache.ResizeCaches ⟨[some d.id], some d.config.size⟩ w3).2 = w4 at e4
  have e5 := key _ (hr d.id w4)
  generalize (m.CacheTransitionStateRefresh m.cache d.id w4).2 = w5 at e5
  have e6 := key _ (ht ⟨[some d.id]⟩ w5)
  generalize (m.cache.StartCaches ⟨[some d.id]⟩ w5).2 = w6 at e6
  have e7 := key _ (hr d.id w6)
  generalize (m.CacheTransitionStateRefresh m.cache d.id w6).2 = w7 at e7
  simp [resizeCache, CacheResourceData.Get, e1, e2, e3, e4, e5, e6, e7]

/-- Witness of C1 amended on the all-succeeding control plane. -/
theorem resizeCache_trace_of_success_witness :
    okCacheMeta.AllSucceed ∧
    (resizeCache okCacheMeta sampleCache 0).err = none ∧
    (resizeCache okCacheMeta sampleCache 0).trace =
      [⟨.CacheTransitionStateRefresh sampleCache.id, none⟩,
       ⟨.StopCaches ⟨[some sampleCache.id]⟩, none⟩,
       ⟨.CacheTransitionStateRefresh sampleCache.id, none⟩,
       ⟨.ResizeCaches ⟨[some sampleCache.id], some sampleCache.config.size⟩, none⟩,
       ⟨.CacheTransitionStateRefresh sampleCache.id, none⟩,
       ⟨.StartCaches ⟨[some sampleCache.id]⟩, none⟩,
       ⟨.CacheTransitionStateRefresh sampleCache.id, none⟩] :=
  have h : okCacheMeta.AllSucceed := by
    refine ⟨?_, ?_, ?_, ?_⟩ <;> simp [okCacheMeta]
  ⟨h, resizeCache_trace_of_success okCacheMeta sampleCache 0 h⟩

/-- C2: in every run of `resizeCache`, a mutating call stands in the trace right
after a `CacheTransitionStateRefresh` that returned nil, and an operation that
fails is the last of the trace and its error is the value returned. -/
theorem resizeCache_mutation_after_stable_await {σ : Type} (m : CacheMeta σ)
    (d : CacheResourceData) (w : σ) :
    (∀ i ev, (resizeCache m d w).trace[i]? = some ev → ev.op.isMutating = true →
      ∃ j id, i = j + 1 ∧
        (resizeCache m d w).trace[j]? = some ⟨.CacheTransitionStateRefresh id, none⟩) ∧
    (∀ i ev e, (resizeCache m d w).trace[i]? = some ev → ev.err = some e →
      (resizeCache m d w).trace.length = i + 1 ∧ (resizeCache m d w).err = some e) := by
  have hs := resizeCache_shape m d w
  simp only at hs
  constructor
  · intro i ev hi hm
    rcases hs with ⟨e, -, ht⟩ | ⟨e, -, ht⟩ | ⟨e, -, ht⟩ | ⟨e, -, ht⟩ |
      ⟨e, -, ht⟩ | ⟨e, -, ht⟩ | ⟨e, -, ht⟩ | ⟨-, ht⟩ <;>
    · rw [ht] at hi ⊢
      rcases i with _ | _ | _ | _ | _ | _ | _ | i <;>
        simp at hi <;> subst hi <;> simp [CacheOp.isMutating] at hm ⊢
  · intro i ev e' hi he
    rcases hs with ⟨e, hr, ht⟩ | ⟨e, hr, ht⟩ | ⟨e, hr, ht⟩ | ⟨e, hr, ht⟩ |
      ⟨e, hr, ht⟩ | ⟨e, hr, ht⟩ | ⟨e, hr, ht⟩ | ⟨hr, ht⟩ <;>
    · rw [ht] at hi ⊢
      rw [hr]
      rcases i with _ | _ | _ | _ | _ | _ | _ | i <;>
        simp at hi <;> subst hi <;> simp at he ⊢ <;> exact he

/-- Witness of C2: the stop that fails is the last entry of the trace and its
error is returned. -/
theorem resizeCache_mutation_after_stable_await_witness :
    (resizeCache (busyOnceCacheMeta 0) sampleCache 0).trace.length = 1 + 1 ∧
    (resizeCache (busyOnceCacheMeta 0) sampleCache 0).err = some "Server Busy" :=
  (resizeCache_mutation_after_stable_await (busyOnceCacheMeta 0) sampleCache 0).2 1
    ⟨.StopCaches ⟨[some "c-1"]⟩, some "Server Busy"⟩ "Server Busy" (by decide) rfl

/-- C9, as stated, fails: on a control plane whose stop (respectively resize,
start) answers "Server Busy" once and would succeed when invoked again,
`resizeCache` invokes that leg exactly once and returns the busy error. -/
theorem resizeCache_retry_refuted :
    ((busyOnceCacheMeta 0).cache.StopCaches ⟨[some "c-1"]⟩ 1).1 = none ∧
    (resizeCache (busyOnceCacheMeta 0) sampleCache 0).err = some "Server Busy" ∧
    ((resizeCache (busyOnceCacheMeta 0) sampleCache 0).trace.filter
      (fun ev => ev.op.isStop)).length = 1 ∧
    ((busyOnceCacheMeta 1).cache.ResizeCaches ⟨[some "c-1"], some 2⟩ 2).1 = none ∧
    (resizeCache (busyOnceCacheMeta 1) sampleCache 0).err = some "Server Busy" ∧
    ((resizeCache (busyOnceCacheMeta 1) sampleCache 0).trace.filter
      (fun ev => ev.op.isResize)).length = 1 ∧
    ((busyOnceCacheMeta 2).cache.StartCaches ⟨[some "c-1"]⟩ 3).1 = none ∧
    (resizeCache (busyOnceCacheMeta 2) sampleCache 0).err = some "Server Busy" ∧
    ((resizeCache (busyOnceCacheMeta 2) sampleCache 0).trace.filter
      (fun ev => ev.op.isStart)).length = 1 := by
  refine ⟨?_, ?_, ?_, ?_, ?_, ?_, ?_, ?_, ?_⟩ <;>
    simp [resizeCache, busyOnceCacheMeta, sampleCache, CacheOp.isStop, CacheOp.isResize,
      CacheOp.isStart, CacheResourceData.Get]

/-- C9, amended: no leg of the cache resize is retried. In every run
`resizeCache` invokes each of `StopCaches`, `ResizeCaches`, `StartCaches` at
most once, and when such a call fails, with a server-busy error or any other,
that error is what `resizeCache` returns. -/
theorem resizeCache_legs_invoked_at_most_once {σ : Type} (m : CacheMeta σ)
    (d : CacheResourceData) (w : σ) :
    ((resizeCache m d w).trace.filter (fun ev => ev.op.isStop)).length ≤ 1 ∧
    ((resizeCache m d w).trace.filter (fun ev => ev.op.isResize)).length ≤ 1 ∧
    ((resizeCache m d w).trace.filter (fun ev => ev.op.isStart)).length ≤ 1 ∧
    (∀ ev e, ev ∈ (resizeCache m d w).trace → ev.op.isMutating = true → ev.err = some e →
      (resizeCache m d w).err = some e) := by
  have hs := resizeCache_shape m d w
  simp only at hs
  rcases hs with ⟨e, hr, ht⟩ | ⟨e, hr, ht⟩ | ⟨e, hr, ht⟩ | ⟨e, hr, ht⟩ |
    ⟨e, hr, ht⟩ | ⟨e, hr, ht⟩ | ⟨e, hr, ht⟩ | ⟨hr, ht⟩ <;>
  · rw [ht, hr]
    refine ⟨?_, ?_, ?_, ?_⟩
    · simp [CacheOp.isStop]
    · simp [CacheOp.isResize]
    · simp [CacheOp.isStart]
    · intro ev e' hmem hmut herr
      simp only [List.mem_cons, List.mem_singleton, List.not_mem_nil, or_false] at hmem
      rcases hmem with rfl | rfl | rfl | rfl | rfl | rfl | rfl <;>
        simp_all [CacheOp.isMutating]

/-- Witness of C9 amended: the stop leg that is busy once is invoked once and
its error returned. -/
theorem resizeCache_legs_invoked_at_most_once_witness :
    (resizeCache (busyOnceCacheMeta 0) sampleCache 0).err = some "Server Busy" :=
  (resizeCache_legs_invoked_at_most_once (busyOnceCacheMeta 0) sampleCache 0).2.2.2
    ⟨.StopCaches ⟨[some "c-1"]⟩, some "Server Busy"⟩ "Server Busy"
    (by simp [resizeCache, busyOnceCacheMeta, sampleCache]) rfl rfl

/-- C10: `modifyCacheAttributes` sends exactly the changed attributes. In update
mode it issues `ModifyCacheAttributes` exactly when one of description, name,
auto_backup_time changed, with the cache ID and each of the three fields set to
the desired value exactly when that attribute changed; in create mode it issues
the call exactly when the description is non-empty, with only the description
set. Without a call it returns nil and leaves the world alone; with a call it
issues that single call and returns its error. -/
theorem modifyCacheAttributes_sends_changed {σ : Type} (m : CacheMeta σ)
    (d : CacheResourceData) (w : σ) :
    -- update mode
    ((d.state.description = d.config.description ∧ d.state.name = d.config.name ∧
        d.state.auto_backup_time = d.config.auto_backup_time) →
      (modifyCacheAttributes m d false w).err = none ∧
      (modifyCacheAttributes m d false w).trace = [] ∧
      (modifyCacheAttributes m d false w).world = w) ∧
    (¬ (d.state.description = d.config.description ∧ d.state.name = d.config.name ∧
        d.state.auto_backup_time = d.config.auto_backup_time) →
      ∃ input : ModifyCacheAttributesInput,
        input.Cache = some d.id ∧
        input.Description =
          (if d.state.description ≠ d.config.description then some d.config.description
           else none) ∧
        input.CacheName =
          (if d.state.name ≠ d.config.name then some d.config.name else none) ∧
        input.AutoBackupTime =
          (if d.state.auto_backup_time ≠ d.config.auto_backup_time
           then some d.config.auto_backup_time else none) ∧
        (modifyCacheAttributes m d false w).trace =
          [⟨.ModifyCacheAttributes input, (m.cache.ModifyCacheAttributes input w).1⟩] ∧
        (modifyCacheAttributes m d false w).err = (m.cache.ModifyCacheAttributes input w).1 ∧
        (modifyCacheAttributes m d false w).world =
          (m.cache.ModifyCacheAttributes input w).2) ∧
    -- create mode
    (d.config.description = "" →
      (modifyCacheAttributes m d true w).err = none ∧
      (modifyCacheAttributes m d true w).trace = [] ∧
      (modifyCacheAttributes m d true w).world = w) ∧
    (d.config.description ≠ "" →
      (modifyCacheAttributes m d true w).trace =
        [⟨.ModifyCacheAttributes ⟨some d.id, some d.config.description, none, none⟩,
          (m.cache.ModifyCacheAttributes
            ⟨some d.id, some d.config.description, none, none⟩ w).1⟩] ∧
      (modifyCacheAttributes m d true w).err =
        (m.cache.ModifyCacheAttributes
          ⟨some d.id, some d.config.description, none, none⟩ w).1 ∧
      (modifyCacheAttributes m d true w).world =
        (m.cache.ModifyCacheAttributes
          ⟨some d.id, some d.config.description, none, none⟩ w).2) := by
  refine ⟨?_, ?_, ?_, ?_⟩
  · rintro ⟨h1, h2, h3⟩
    simp [modifyCacheAttributes, CacheResourceData.HasChange, h1, h2, h3]
  · intro h
    refine ⟨⟨some d.id,
      if d.state.description ≠ d.config.description then some d.config.description else none,
      if d.state.name ≠ d.config.name then some d.config.name else none,
      if d.state.auto_backup_time ≠ d.config.auto_backup_time
        then some d.config.auto_backup_time else none⟩, rfl, rfl, rfl, rfl, ?_⟩
    by_cases h1 : d.state.description = d.config.description <;>
    by_cases h2 : d.state.name = d.config.name <;>
    by_cases h3 : d.state.auto_backup_time = d.config.auto_backup_time <;>
    simp [modifyCacheAttributes, CacheResourceData.HasChange, CacheResourceData.Get,
      h1, h2, h3] at h ⊢
  · intro h
    simp [modifyCacheAttributes, CacheResourceData.Get, h]
  · intro h
    simp [modifyCacheAttributes, CacheResourceData.Get, h]

/-- Witness of C10: a cache whose name alone changed sends the name alone. -/
theorem modifyCacheAttributes_sends_changed_witness :
    ∃ input : ModifyCacheAttributesInput,
      input.Cache = some "c-1" ∧ input.Description = none ∧
      input.CacheName = some "kv" ∧ input.AutoBackupTime = none ∧
      (modifyCacheAttributes okCacheMeta renamedCache false 0).trace =
        [⟨.ModifyCacheAttributes input, none⟩] := by
  obtain ⟨input, h1, h2, h3, h4, h5, -, -⟩ :=
    (modifyCacheAttributes_sends_changed okCacheMeta renamedCache 0).2.1 (by decide)
  exact ⟨input, h1, by simpa using h2, by simpa using h3, by simpa using h4,
    by simpa [okCacheMeta] using h5⟩

/-! ## Theorems: retry policy -/

/-- The retry loop over a closure of the instance file appends to the trace the
invocations of one retry-wrapped call, and leaves in `err` the error of the
last invocation and in `output` its result. -/
theorem simpleRetry_retryClosure {O σ : Type} (busy : Err → Bool) (op : Op)
    (call : σ → Except Err O × σ) (n : Nat) (s0 : CallVars O σ) :
    ∃ evs : List Event,
      (simpleRetry (retryClosure busy op call) n s0).2.trace = s0.trace ++ evs ∧
      evs ≠ [] ∧ evs.length ≤ n + 1 ∧
      (∀ ev ∈ evs, ev.op = op ∧ ev.calls = 1) ∧
      (∀ ev ∈ evs.dropLast, ∃ e, ev.err = some e ∧ busy e = true) ∧
      evs.getLast?.map (·.err) = some (simpleRetry (retryClosure busy op call) n s0).2.err ∧
      ((simpleRetry (retryClosure busy op call) n s0).2.err = none →
        ∃ out, (simpleRetry (retryClosure busy op call) n s0).2.output = some out) := by
  induction n generalizing s0 with
  | zero =>
    rcases hc : call s0.world with ⟨out | e, w1⟩
    · exact ⟨[⟨op, some out, 1⟩], by
        simp [simpleRetry, retryClosure, hc, isServerBusy]⟩
    · exact ⟨[⟨op, none, 1⟩], by
        simp [simpleRetry, retryClosure, hc, isServerBusy]⟩
  | succ n ih =>
    rcases hc : call s0.world with ⟨e | out, w1⟩
    · by_cases hb : busy e = true
      · obtain ⟨evs, h1, h2, h3, h4, h5, h6, h7⟩ :=
          ih ⟨none, some e, w1, s0.trace ++ [⟨op, some e, 1⟩]⟩
        have hstep : simpleRetry (retryClosure busy op call) (n + 1) s0 =
            simpleRetry (retryClosure busy op call) n
              ⟨none, some e, w1, s0.trace ++ [⟨op, some e, 1⟩]⟩ := by
          simp [simpleRetry, retryClosure, hc, isServerBusy, hb]
        rw [hstep]
        refine ⟨⟨op, some e, 1⟩ :: evs, ?_, ?_, ?_, ?_, ?_, ?_, h7⟩
        · simpa using h1
        · simp
        · simpa using h3
        · intro ev hev
          rcases List.mem_cons.1 hev with rfl | hev
          · exact ⟨rfl, rfl⟩
          · exact h4 ev hev
        · intro ev hev
          rw [List.dropLast_cons_of_ne_nil h2] at hev
          rcases List.mem_cons.1 hev with rfl | hev
          · exact ⟨e, rfl, hb⟩
          · exact h5 ev hev
        · rw [← h6]
          cases evs with
          | nil => exact absurd rfl h2
          | cons a l => simp [List.getLast?_cons_cons]
      · exact ⟨[⟨op, some e, 1⟩], by
          simp [simpleRetry, retryClosure, hc, isServerBusy, hb]⟩
    · exact ⟨[⟨op, none, 1⟩], by
        simp [simpleRetry, retryClosure, hc, isServerBusy]⟩

/-- The trace of a retried block is one retry-wrapped call ending in the error
left in `err`; when that is nil, `output` holds the result. -/
theorem retried_spec {O σ : Type} (m : InstanceMeta σ) (op : Op)
    (call : σ → Except Err O × σ) (w : σ) :
    RetriedCall m op (retried m op call w).trace (retried m op call w).err ∧
    ((retried m op call w).err = none → ∃ out, (retried m op call w).output = some out) := by
  obtain ⟨evs, h1, h2, h3, h4, h5, h6, h7⟩ :=
    simpleRetry_retryClosure m.busy op call m.retries ⟨none, none, w, []⟩
  simp only [List.nil_append] at h1
  unfold retried
  rw [h1]
  exact ⟨⟨h2, h3, h4, h5, h6⟩, h7⟩

/-! ## Theorems: instance read and update -/

/-- The read issues the retry-wrapped `DescribeInstances` for the ID and nothing
else. -/
theorem read_trace {σ : Type} (m : InstanceMeta σ) (d : ResourceData) (w : σ) :
    (resourceQingcloudInstanceRead m d w).trace =
      (retried m (.DescribeInstances ⟨[some d.id], some 1⟩)
        (m.instance_.DescribeInstances ⟨[some d.id], some 1⟩) w).trace := by
  unfold resourceQingcloudInstanceRead
  simp only
  split
  · rfl
  · rfl
  · split
    · rfl
    · split
      · rfl
      · rfl
      · split <;> rfl

/-- Every run of the update has one of two shapes. Either sub-step `k` is the
first to fail: the trace is the first `k` sub-steps, in order and successful,
then the failing one, the error is returned, and the data is the input with
partial mode on and the keys of the first `k` sub-steps marked. Or the nine
sub-steps succeed, partial mode is switched off and the read runs. -/
theorem update_shape {σ : Type} (m : InstanceMeta σ) (d : ResourceData) (w : σ) :
    (∃ k e, k < 9 ∧
      (resourceQingcloudInstanceUpdate m d w).ret = .error e ∧
      (resourceQingcloudInstanceUpdate m d w).trace.map Event.opErr =
        (updateSteps.take k).map (fun op => (op, none)) ++
          (updateSteps.drop k).head?.toList.map (fun op => (op, some e)) ∧
      (resourceQingcloudInstanceUpdate m d w).d = markApplied d k ∧
      worldAfterSteps m d w = none) ∨
    (∃ pre w1,
      worldAfterSteps m d w = some w1 ∧
      pre.map Event.opErr = updateSteps.map (fun op => (op, none)) ∧
      (resourceQingcloudInstanceUpdate m d w).trace =
        pre ++ (resourceQingcloudInstanceRead m ((markApplied d 9).Partial false) w1).trace ∧
      (resourceQingcloudInstanceUpdate m d w).ret =
        (resourceQingcloudInstanceRead m ((markApplied d 9).Partial false) w1).ret ∧
      (resourceQingcloudInstanceUpdate m d w).d =
        (resourceQingcloudInstanceRead m ((markApplied d 9).Partial false) w1).d) := by
  simp only [resourceQingcloudInstanceUpdate]
  split
  · rename_i e h1
    exact Or.inl ⟨0, e, by decide, rfl, by
      simp [Outcome.event, updateSteps, Event.opErr, h1], rfl, by
      simp [worldAfterSteps, stepsWorld, updateSteps, InstanceMeta.step, stepKeys,
        h1]⟩
  rename_i h1
  split
  · rename_i e h2
    exact Or.inl ⟨1, e, by decide, rfl, by
      simp [Outcome.event, updateSteps, Event.opErr, h1, h2], rfl, by
      simp [worldAfterSteps, stepsWorld, updateSteps, InstanceMeta.step, stepKeys,
        h1, h2]⟩
  rename_i h2
  split
  · rename_i e h3
    exact Or.inl ⟨2, e, by decide, rfl, by
      simp [Outcome.event, updateSteps, Event.opErr, h1, h2, h3], rfl, by
      simp [worldAfterSteps, stepsWorld, updateSteps, InstanceMeta.step, stepKeys,
        h1, h2, h3]⟩
  rename_i h3
  split
  · rename_i e h4
    exact Or.inl ⟨3, e, by decide, rfl, by
      simp [Outcome.event, updateSteps, Event.opErr, h1, h2, h3, h4], rfl, by
      simp [worldAfterSteps, stepsWorld, updateSteps, InstanceMeta.step, stepKeys,
        h1, h2, h3, h4]⟩
  rename_i h4
  split
  · rename_i e h5
    exact Or.inl ⟨4, e, by decide, rfl, by
      simp [Outcome.event, updateSteps, Event.opErr, h1, h2, h3, h4, h5], rfl, by
      simp [worldAfterSteps, stepsWorld, updateSteps, InstanceMeta.step, stepKeys,
        h1, h2, h3, h4, h5]⟩
  rename_i h5
  split
  · rename_i e h6
    exact Or.inl ⟨5, e, by decide, rfl, by
      simp [Outcome.event, updateSteps, Event.opErr, h1, h2, h3, h4, h5, h6], rfl, by
      simp [worldAfterSteps, stepsWorld, updateSteps, InstanceMeta.step, stepKeys,
        h1, h2, h3, h4, h5, h6]⟩
  rename_i h6
  split
  · rename_i e h7
    exact Or.inl ⟨6, e, by decide, rfl, by
      simp [Outcome.event, updateSteps, Event.opErr, h1, h2, h3, h4, h5, h6, h7], rfl, by
      simp [worldAfterSteps, stepsWorld, updateSteps, InstanceMeta.step, stepKeys,
        h1, h2, h3, h4, h5, h6, h7]⟩
  rename_i h7
  split
  · rename_i e h8
    exact Or.inl ⟨7, e, by decide, rfl, by
      simp [Outcome.event, updateSteps, Event.opErr, h1, h2, h3, h4, h5, h6, h7, h8], rfl, by
      simp [worldAfterSteps, stepsWorld, updateSteps, InstanceMeta.step, stepKeys,
        h1, h2, h3, h4, h5, h6, h7, h8]⟩
  rename_i h8
  split
  · rename_i e h9
    exact Or.inl ⟨8, e, by decide, rfl, by
      simp [Outcome.event, updateSteps, Event.opErr, h1, h2, h3, h4, h5, h6, h7, h8, h9], rfl, by
      simp [worldAfterSteps, stepsWorld, updateSteps, InstanceMeta.step, stepKeys,
        h1, h2, h3, h4, h5, h6, h7, h8, h9]⟩
  rename_i h9
  refine Or.inr ⟨_, _, ?_, ?_, rfl, rfl, rfl⟩
  · simp [worldAfterSteps, stepsWorld, updateSteps, InstanceMeta.step, stepKeys,
        h1, h2, h3, h4, h5, h6, h7, h8, h9]
  · simp [Outcome.event, updateSteps, Event.opErr, h1, h2, h3, h4, h5, h6, h7, h8, h9]

/-- Marking a list of keys in partial mode keeps the mode on, adds exactly those
keys and touches nothing else. -/
theorem foldl_SetPartial (keys : List String) (d : ResourceData) (h : d.partialMode = true) :
    (keys.foldl ResourceData.SetPartial d).partialMode = true ∧
    (∀ key, key ∈ (keys.foldl ResourceData.SetPartial d).partialKeys ↔
      key ∈ d.partialKeys ∨ key ∈ keys) ∧
    (keys.foldl ResourceData.SetPartial d).id = d.id ∧
    (keys.foldl ResourceData.SetPartial d).attrs = d.attrs := by
  induction keys generalizing d with
  | nil => simp [h]
  | cons k ks ih =>
    have hm : (d.SetPartial k).partialMode = true := by
      simp [ResourceData.SetPartial, h]
    obtain ⟨h1, h2, h3, h4⟩ := ih (d.SetPartial k) hm
    refine ⟨h1, ?_, ?_, ?_⟩
    · intro key
      rw [List.foldl_cons, h2 key]
      by_cases hk : k ∈ d.partialKeys
      · simp only [ResourceData.SetPartial, h, hk, if_true, List.mem_cons]
        constructor
        · rintro (h' | h')
          · exact Or.inl h'
          · exact Or.inr (Or.inr h')
        · rintro (h' | rfl | h')
          · exact Or.inl h'
          · exact Or.inl hk
          · exact Or.inr h'
      · simp only [ResourceData.SetPartial, h, hk, if_true, if_false, List.mem_cons,
          List.mem_append, List.mem_singleton]
        tauto
    · rw [List.foldl_cons, h3]
      simp [ResourceData.SetPartial, h]
    · rw [List.foldl_cons, h4]
      simp [ResourceData.SetPartial, h]

/-- The data after `k` applied sub-steps: partial mode is on, the marked keys are
those marked before and those of the first `k` sub-steps, the rest is as
before. -/
theorem markApplied_spec (d : ResourceData) (k : Nat) :
    (markApplied d k).partialMode = true ∧
    (∀ key, key ∈ (markApplied d k).partialKeys ↔
      key ∈ d.partialKeys ∨ key ∈ appliedKeys k) ∧
    (markApplied d k).id = d.id ∧
    (markApplied d k).attrs = d.attrs := by
  have h := foldl_SetPartial (appliedKeys k) (d.Partial true) (by simp [ResourceData.Partial])
  simpa [markApplied, ResourceData.Partial] using h

/-- C7: when a sub-step of the update fails, the rest of the plan is dropped and
the applied steps are recorded exactly. The sub-steps run in the fixed order
wait-lease, modify-attributes, change-vxnet, change-security-group, change-eip,
change-keypairs, change-volumes, resize, tag-update. If sub-step `k` returns
the error `e`, the update returns `e`, the trace is the first `k` sub-steps, all
successful, followed by the failing one (no later step and no read), partial
mode is on, the ID is untouched, and a key is marked exactly when it was marked
on entry or belongs to one of the first `k` sub-steps. Partial mode is off after
the update only when all nine sub-steps succeeded. -/
theorem update_aborts_at_first_failure {σ : Type} (m : InstanceMeta σ) (d : ResourceData)
    (w : σ) :
    (∀ k ev e, k < 9 → (resourceQingcloudInstanceUpdate m d w).trace[k]? = some ev →
      some ev.op = updateSteps[k]? → ev.err = some e →
      (resourceQingcloudInstanceUpdate m d w).ret = .error e ∧
      (resourceQingcloudInstanceUpdate m d w).trace.map Event.opErr =
        (updateSteps.take k).map (fun op => (op, none)) ++ [(ev.op, some e)] ∧
      (resourceQingcloudInstanceUpdate m d w).trace.length = k + 1 ∧
      (resourceQingcloudInstanceUpdate m d w).d.partialMode = true ∧
      (∀ key, key ∈ (resourceQingcloudInstanceUpdate m d w).d.partialKeys ↔
        key ∈ d.partialKeys ∨ key ∈ appliedKeys k) ∧
      (resourceQingcloudInstanceUpdate m d w).d.id = d.id) ∧
    ((resourceQingcloudInstanceUpdate m d w).d.partialMode = false →
      ((resourceQingcloudInstanceUpdate m d w).trace.take 9).map Event.opErr =
        updateSteps.map (fun op => (op, none))) ∧
    ((resourceQingcloudInstanceUpdate m d w).trace.take 9).map Event.op <+: updateSteps := by
  have hop : ∀ l : List Event, l.map Event.op = (l.map Event.opErr).map Prod.fst := by
    intro l
    simp [Event.opErr]
  rcases update_shape m d w with
    ⟨k0, e0, hk0, hret, htr, hd, -⟩ | ⟨pre, w1, -, hpre, htr, hret, hd⟩
  · obtain ⟨hm, hkeys, hid, -⟩ := markApplied_spec d k0
    have hlen : (resourceQingcloudInstanceUpdate m d w).trace.length = k0 + 1 := by
      have := congrArg List.length htr
      rw [List.length_map] at this
      rw [this]
      interval_cases k0 <;> simp [updateSteps]
    refine ⟨?_, ?_, ?_⟩
    · intro k ev e hk hev hop' herr
      have h2 : ((resourceQingcloudInstanceUpdate m d w).trace.map Event.opErr)[k]? =
          some (ev.op, some e) := by
        rw [List.getElem?_map, hev]
        simp [Event.opErr, herr]
      rw [htr] at h2
      have hkk : k = k0 ∧ e = e0 := by
        interval_cases k0 <;> interval_cases k <;> simp [updateSteps] at h2 ⊢ <;>
          exact h2.2.symm
      obtain ⟨rfl, rfl⟩ := hkk
      rw [hd, hret, htr]
      refine ⟨rfl, ?_, hlen, hm, hkeys, hid⟩
      interval_cases k <;> simp [updateSteps] at hop' ⊢ <;> exact hop'.symm
    · intro hoff
      rw [hd, hm] at hoff
      exact absurd hoff (by decide)
    · rw [hop, List.map_take, htr]
      interval_cases k0 <;> simp [updateSteps]
  · have hlen : pre.length = 9 := by
      have := congrArg List.length hpre
      simpa [updateSteps] using this
    refine ⟨?_, ?_, ?_⟩
    · intro k ev e hk hev hop' herr
      have h2 : ((resourceQingcloudInstanceUpdate m d w).trace.map Event.opErr)[k]? =
          some (ev.op, some e) := by
        rw [List.getElem?_map, hev]
        simp [Event.opErr, herr]
      rw [htr, List.map_append, hpre] at h2
      exfalso
      interval_cases k <;> simp [updateSteps] at h2
    · intro _
      rw [htr, List.take_append_of_le_length (by omega), List.take_of_length_le (by omega), hpre]
    · rw [htr, List.take_append_of_le_length (by omega), List.take_of_length_le (by omega),
        hop, hpre]
      simp [Function.comp_def]

/-- Witness of C7: the change of the EIP, sub-step 4, fails. -/
theorem update_aborts_at_first_failure_witness :
    (resourceQingcloudInstanceUpdate (cloud true eipFailure) existingData ["i-1"]).ret =
      .error "eip not found" ∧
    (resourceQingcloudInstanceUpdate (cloud true eipFailure) existingData ["i-1"]).trace.length =
      4 + 1 ∧
    (resourceQingcloudInstanceUpdate (cloud true eipFailure) existingData
      ["i-1"]).d.partialMode = true :=
  have h := (update_aborts_at_first_failure (cloud true eipFailure) existingData ["i-1"]).1 4
    ⟨.instanceUpdateChangeEip, some "eip not found", 0⟩ "eip not found"
    (by decide) (by decide) (by decide) rfl
  ⟨h.1, h.2.2.1, h.2.2.2.1⟩

/-- The read clears the ID exactly when it finds the instance deleted, and then
returns nil after a `DescribeInstances` that ended without error; otherwise it
leaves the ID alone. -/
theorem read_deleted {σ : Type} (m : InstanceMeta σ) (d : ResourceData) (w : σ) :
    (readFindsDeleted m d.id w = true →
      (resourceQingcloudInstanceRead m d w).ret = .nil ∧
      (resourceQingcloudInstanceRead m d w).d = d.SetId "" ∧
      (retried m (.DescribeInstances ⟨[some d.id], some 1⟩)
        (m.instance_.DescribeInstances ⟨[some d.id], some 1⟩) w).err = none) ∧
    (readFindsDeleted m d.id w = false →
      (resourceQingcloudInstanceRead m d w).d.id = d.id) := by
  unfold resourceQingcloudInstanceRead readFindsDeleted
  simp only
  rcases he : (retried m (.DescribeInstances ⟨[some d.id], some 1⟩)
    (m.instance_.DescribeInstances ⟨[some d.id], some 1⟩) w).err with _ | e
  swap
  · simp
  rcases ho : (retried m (.DescribeInstances ⟨[some d.id], some 1⟩)
    (m.instance_.DescribeInstances ⟨[some d.id], some 1⟩) w).output with _ | out
  · simp
  by_cases hdel : m.isInstanceDeleted out.InstanceSet = true
  · simp [hdel]
  · simp only [hdel]
    refine ⟨fun h => absurd h (by simp), fun _ => ?_⟩
    simp only [Bool.false_eq_true, if_false]
    split
    · rfl
    · rfl
    · split <;> simp [ResourceData.Set]

/-- The update leaves the ID alone unless its nine sub-steps succeed and its
final read finds the instance deleted; then it returns nil with the ID cleared,
and its trace is the nine sub-steps followed by the retry-wrapped
`DescribeInstances` that ended without error. -/
theorem update_handle {σ : Type} (m : InstanceMeta σ) (d : ResourceData) (w : σ) :
    (updateFindsDeleted m d w = false →
      (resourceQingcloudInstanceUpdate m d w).d.id = d.id) ∧
    (updateFindsDeleted m d w = true →
      (resourceQingcloudInstanceUpdate m d w).ret = .nil ∧
      (resourceQingcloudInstanceUpdate m d w).d.id = "" ∧
      ∃ pre reads,
        (resourceQingcloudInstanceUpdate m d w).trace = pre ++ reads ∧
        pre.map Event.opErr = updateSteps.map (fun op => (op, none)) ∧
        RetriedCall m (.DescribeInstances ⟨[some d.id], some 1⟩) reads none) := by
  have hid : ((markApplied d 9).Partial false).id = d.id := by
    simpa [ResourceData.Partial] using (markApplied_spec d 9).2.2.1
  rcases update_shape m d w with
    ⟨k0, e0, -, -, -, hd, hw⟩ | ⟨pre, w1, hw, hpre, htr, hret, hd⟩
  · simp only [updateFindsDeleted, hw]
    refine ⟨fun _ => ?_, fun h => absurd h (by simp)⟩
    rw [hd]
    exact (markApplied_spec d k0).2.2.1
  · have hrd := read_deleted m ((markApplied d 9).Partial false) w1
    have hrt := read_trace m ((markApplied d 9).Partial false) w1
    rw [hid] at hrd hrt
    simp only [updateFindsDeleted, hw]
    refine ⟨fun h => ?_, fun h => ?_⟩
    · rw [hd, hrd.2 h]
    · obtain ⟨h1, h2, h3⟩ := hrd.1 h
      refine ⟨by rw [hret, h1], by rw [hd, h2]; rfl, pre, _, htr, hpre, ?_⟩
      have hs := (retried_spec m (.DescribeInstances ⟨[some d.id], some 1⟩)
        (m.instance_.DescribeInstances ⟨[some d.id], some 1⟩) w1).1
      rw [h3] at hs
      rw [hrt]
      exact hs

/-! ## Theorems: counting remote calls -/

/-- The remote calls of a concatenated trace add up. -/
theorem remoteCalls_append (s t : List Event) :
    remoteCalls (s ++ t) = remoteCalls s + remoteCalls t := by
  simp [remoteCalls]

/-- A trace of events that issued no call stands for no remote call. -/
theorem remoteCalls_eq_zero (t : List Event) (h : ∀ ev ∈ t, ev.calls = 0) :
    remoteCalls t = 0 := by
  induction t with
  | nil => rfl
  | cons a l ih =>
    have ha := h a (List.mem_cons_self a l)
    have hl := ih (fun ev hev => h ev (List.mem_cons_of_mem a hev))
    simp only [remoteCalls, List.map_cons, List.sum_cons] at hl ⊢
    omega

/-- A trace of single SDK calls stands for as many remote calls as it has
entries. -/
theorem remoteCalls_eq_length (t : List Event) (h : ∀ ev ∈ t, ev.calls = 1) :
    remoteCalls t = t.length := by
  induction t with
  | nil => rfl
  | cons a l ih =>
    have ha := h a (List.mem_cons_self a l)
    have hl := ih (fun ev hev => h ev (List.mem_cons_of_mem a hev))
    simp only [remoteCalls, List.map_cons, List.sum_cons, List.length_cons] at hl ⊢
    omega

/-! ## Theorems: instance update without changes -/

/-- C3, as stated, fails: on a control plane where the described instance equals
the resource data and every sub-step succeeds without a call, the update still
issues one remote call, the `DescribeInstances` of its read. -/
theorem update_noop_zero_calls_refuted :
    (∀ ev ∈ (resourceQingcloudInstanceUpdate (cloud true noFailure) existingData ["i-1"]).trace,
      ev.op.isStep = true → ev.err = none ∧ ev.calls = 0) ∧
    (resourceQingcloudInstanceUpdate (cloud true noFailure) existingData ["i-1"]).d =
      existingData ∧
    remoteCalls
      (resourceQingcloudInstanceUpdate (cloud true noFailure) existingData ["i-1"]).trace = 1 ∧
    (resourceQingcloudInstanceUpdate (cloud true noFailure) existingData ["i-1"]).trace.getLast? =
      some ⟨.DescribeInstances ⟨[some "i-1"], some 1⟩, none, 1⟩ := by
  refine ⟨by decide, by decide, by decide, by decide⟩

/-- C3, amended: when every sub-step of the update succeeds without issuing a
call, the update runs the nine sub-steps and then its read, and the remote calls
it issues are exactly the `DescribeInstances` calls of that retry-wrapped read:
at least one and at most `retries + 1`. -/
theorem update_noop_only_describes {σ : Type} (m : InstanceMeta σ) (d : ResourceData) (w : σ)
    (h : ∀ ev ∈ (resourceQingcloudInstanceUpdate m d w).trace,
      ev.op.isStep = true → ev.err = none ∧ ev.calls = 0) :
    ∃ pre reads final,
      (resourceQingcloudInstanceUpdate m d w).trace = pre ++ reads ∧
      pre.map Event.op = updateSteps ∧
      RetriedCall m (.DescribeInstances ⟨[some d.id], some 1⟩) reads final ∧
      remoteCalls (resourceQingcloudInstanceUpdate m d w).trace = reads.length ∧
      1 ≤ remoteCalls (resourceQingcloudInstanceUpdate m d w).trace ∧
      remoteCalls (resourceQingcloudInstanceUpdate m d w).trace ≤ m.retries + 1 := by
  have hop : ∀ l : List Event, l.map Event.op = (l.map Event.opErr).map Prod.fst := by
    intro l
    simp [Event.opErr]
  rcases update_shape m d w with
    ⟨k0, e0, hk0, -, htr, -, -⟩ | ⟨pre, w1, -, hpre, htr, -, -⟩
  · exfalso
    have hmem : ∃ op, op ∈ updateSteps ∧
        (op, some e0) ∈ (resourceQingcloudInstanceUpdate m d w).trace.map Event.opErr := by
      rw [htr]
      interval_cases k0 <;> simp [updateSteps]
    obtain ⟨op, hop1, hop2⟩ := hmem
    obtain ⟨ev, hev, hev2⟩ := List.mem_map.1 hop2
    simp only [Event.opErr, Prod.mk.injEq] at hev2
    have := (h ev hev (by simp [Op.isStep, hev2.1, hop1])).1
    rw [hev2.2] at this
    exact absurd this (by simp)
  · have hid : ((markApplied d 9).Partial false).id = d.id := by
      simpa [ResourceData.Partial] using (markApplied_spec d 9).2.2.1
    have hrd := read_trace m ((markApplied d 9).Partial false) w1
    rw [hid] at hrd
    obtain ⟨hrc, -⟩ := retried_spec m (.DescribeInstances ⟨[some d.id], some 1⟩)
      (m.instance_.DescribeInstances ⟨[some d.id], some 1⟩) w1
    rw [← hrd] at hrc
    have hpreop : pre.map Event.op = updateSteps := by
      rw [hop, hpre]
      simp [Function.comp_def]
    have hquiet : ∀ ev ∈ pre, ev.calls = 0 := by
      intro ev hev
      have hmem : ev.op ∈ updateSteps := by
        rw [← hpreop]
        exact List.mem_map_of_mem Event.op hev
      exact (h ev (by rw [htr]; exact List.mem_append_left _ hev)
        (by simp [Op.isStep, hmem])).2
    have hcount : remoteCalls (resourceQingcloudInstanceUpdate m d w).trace =
        (resourceQingcloudInstanceRead m ((markApplied d 9).Partial false) w1).trace.length := by
      rw [htr, remoteCalls_append, remoteCalls_eq_zero pre hquiet,
        remoteCalls_eq_length _ (fun ev hev => (hrc.2.2.1 ev hev).2)]
      omega
    refine ⟨pre, _, _, htr, hpreop, hrc, hcount, ?_, ?_⟩
    · rw [hcount]
      exact List.length_pos.2 hrc.1
    · rw [hcount]
      exact hrc.2.1

/-- Witness of C3 amended on the sample control plane. -/
theorem update_noop_only_describes_witness :
    ∃ pre reads final,
      (resourceQingcloudInstanceUpdate (cloud true noFailure) existingData ["i-1"]).trace =
        pre ++ reads ∧
      pre.map Event.op = updateSteps ∧
      RetriedCall (cloud true noFailure) (.DescribeInstances ⟨[some existingData.id], some 1⟩)
        reads final ∧
      remoteCalls
        (resourceQingcloudInstanceUpdate (cloud true noFailure) existingData ["i-1"]).trace =
        reads.length ∧
      1 ≤ remoteCalls
        (resourceQingcloudInstanceUpdate (cloud true noFailure) existingData ["i-1"]).trace ∧
      remoteCalls
        (resourceQingcloudInstanceUpdate (cloud true noFailure) existingData ["i-1"]).trace ≤
        (cloud true noFailure).retries + 1 :=
  update_noop_only_describes (cloud true noFailure) existingData ["i-1"] (by decide)

/-! ## Theorems: instance create -/

/-- C5: with an empty set of key pairs the create returns the error "KeyPair
Required" and has no effect: the trace is empty (no `RunInstances`, no await, no
sub-step of the update), and the resource data, its ID included, and the remote
world are as on entry. -/
theorem create_requires_keypair {σ : Type} (m : InstanceMeta σ) (d : ResourceData) (w : σ)
    (h : d.attrs.keypair_ids = []) :
    (resourceQingcloudInstanceCreate m d w).ret = .error "KeyPair Required" ∧
    (resourceQingcloudInstanceCreate m d w).trace = [] ∧
    (resourceQingcloudInstanceCreate m d w).d = d ∧
    (resourceQingcloudInstanceCreate m d w).world = w := by
  simp [resourceQingcloudInstanceCreate, h]

/-- Witness of C5 on resource data without a key pair. -/
theorem create_requires_keypair_witness :
    (resourceQingcloudInstanceCreate (cloud true noFailure) noKeyData []).ret =
      .error "KeyPair Required" ∧
    (resourceQingcloudInstanceCreate (cloud true noFailure) noKeyData []).trace = [] ∧
    (resourceQingcloudInstanceCreate (cloud true noFailure) noKeyData []).d = noKeyData ∧
    (resourceQingcloudInstanceCreate (cloud true noFailure) noKeyData []).world = [] :=
  create_requires_keypair (cloud true noFailure) noKeyData [] rfl

/-- C6, as stated, fails: provisioning succeeds and returns `i-new`, the await
and the nine sub-steps succeed, the read of the update finds the instance
deleted, and the create returns nil with the ID unset. -/
theorem create_handle_iff_refuted :
    ((cloud false noFailure).instance_.RunInstances
      ⟨some 1, some "web", some "img-1", some 1, some 1024, some 0, some "sg-1",
        some "keypair", some "kp-1"⟩ []).1 = .ok ⟨[some "i-new"]⟩ ∧
    (resourceQingcloudInstanceCreate (cloud false noFailure) freshData []).trace.head? =
      some ⟨.RunInstances ⟨some 1, some "web", some "img-1", some 1, some 1024, some 0,
        some "sg-1", some "keypair", some "kp-1"⟩, none, 1⟩ ∧
    (resourceQingcloudInstanceCreate (cloud false noFailure) freshData []).ret = .nil ∧
    (resourceQingcloudInstanceCreate (cloud false noFailure) freshData []).d.id = "" := by
  refine ⟨rfl, by decide, by decide, by decide⟩

/-- C6, amended: for a create with a key pair, let the retry-wrapped
`RunInstances` of the request `createInput` end. If it ends in an error, the
create returns that error, the resource data (the ID included) is as on entry
and the trace holds the `RunInstances` invocations only. If it ends without
error and returns at least one instance ID, the await on the first returned ID
follows in the trace; if that await fails its error is returned and the ID is
that first ID; the ID is that first ID whenever the create returns anything but
nil; and the ID is that first ID unless the await and the nine sub-steps of the
update succeed and the final read, after a `DescribeInstances` that ended
without error, finds the instance deleted, in which case the create returns nil
with the ID empty. -/
theorem create_handle {σ : Type} (m : InstanceMeta σ) (d : ResourceData) (w : σ)
    (kp : String) (kps : List String) (hk : d.attrs.keypair_ids = kp :: kps) :
    RetriedCall m (.RunInstances (createInput m d kp))
      (retried m (.RunInstances (createInput m d kp))
        (m.instance_.RunInstances (createInput m d kp)) w).trace
      (retried m (.RunInstances (createInput m d kp))
        (m.instance_.RunInstances (createInput m d kp)) w).err ∧
    (∀ e, (retried m (.RunInstances (createInput m d kp))
        (m.instance_.RunInstances (createInput m d kp)) w).err = some e →
      (resourceQingcloudInstanceCreate m d w).ret = .error e ∧
      (resourceQingcloudInstanceCreate m d w).d = d ∧
      (resourceQingcloudInstanceCreate m d w).trace =
        (retried m (.RunInstances (createInput m d kp))
          (m.instance_.RunInstances (createInput m d kp)) w).trace) ∧
    (∀ out first rest,
      (retried m (.RunInstances (createInput m d kp))
        (m.instance_.RunInstances (createInput m d kp)) w).err = none →
      (retried m (.RunInstances (createInput m d kp))
        (m.instance_.RunInstances (createInput m d kp)) w).output = some out →
      out.Instances = first :: rest →
      (∃ e n tail, (resourceQingcloudInstanceCreate m d w).trace =
        (retried m (.RunInstances (createInput m d kp))
          (m.instance_.RunInstances (createInput m d kp)) w).trace ++
          ⟨.InstanceTransitionStateRefresh (StringValue first), e, n⟩ :: tail) ∧
      (∀ e, (m.InstanceTransitionStateRefresh m.instance_ (StringValue first)
          (retried m (.RunInstances (createInput m d kp))
            (m.instance_.RunInstances (createInput m d kp)) w).world).err = some e →
        (resourceQingcloudInstanceCreate m d w).ret = .error e ∧
        (resourceQingcloudInstanceCreate m d w).d = d.SetId (StringValue first)) ∧
      ((resourceQingcloudInstanceCreate m d w).ret ≠ .nil →
        (resourceQingcloudInstanceCreate m d w).d.id = StringValue first) ∧
      (createFindsDeleted m d w kp first = false →
        (resourceQingcloudInstanceCreate m d w).d.id = StringValue first) ∧
      (createFindsDeleted m d w kp first = true →
        (resourceQingcloudInstanceCreate m d w).ret = .nil ∧
        (resourceQingcloudInstanceCreate m d w).d.id = "" ∧
        ∃ n pre reads,
          (resourceQingcloudInstanceCreate m d w).trace =
            (retried m (.RunInstances (createInput m d kp))
              (m.instance_.RunInstances (createInput m d kp)) w).trace ++
              ⟨.InstanceTransitionStateRefresh (StringValue first), none, n⟩ ::
                (pre ++ reads) ∧
          pre.map Event.opErr = updateSteps.map (fun op => (op, none)) ∧
          RetriedCall m (.DescribeInstances ⟨[some (StringValue first)], some 1⟩)
            reads none)) := by
  refine ⟨(retried_spec m _ _ w).1, ?_, ?_⟩
  · intro e he
    simp only [createInput] at he ⊢
    simp [resourceQingcloudInstanceCreate, hk, he]
  · intro out first rest
    simp only [createFindsDeleted, createInput, resourceQingcloudInstanceCreate, hk,
      ResourceData.SetId]
    generalize retried m (.RunInstances ⟨some 1, m.getNamePointer d,
        m.getSetStringPointer d resourceInstanceImageID, some d.attrs.cpu,
        some d.attrs.memory, some d.attrs.instance_class,
        m.getSetStringPointer d resourceInstanceSecurityGroupId, some "keypair", some kp⟩)
      (m.instance_.RunInstances ⟨some 1, m.getNamePointer d,
        m.getSetStringPointer d resourceInstanceImageID, some d.attrs.cpu,
        some d.attrs.memory, some d.attrs.instance_class,
        m.getSetStringPointer d resourceInstanceSecurityGroupId, some "keypair", some kp⟩)
      w = s
    intro he ho hi
    simp only [he, ho, hi]
    generalize m.InstanceTransitionStateRefresh m.instance_ (StringValue first) s.world = o
    have hu := update_handle m (d.SetId (StringValue first)) o.world
    simp only [ResourceData.SetId] at hu
    rcases hr : o.err with _ | e
    · simp only []
      refine ⟨⟨none, o.calls, _, by simp [Outcome.event, hr]; rfl⟩,
        fun e h => absurd h (by simp), ?_, hu.1, ?_⟩
      · intro hne
        by_cases hdel : updateFindsDeleted m
            { id := StringValue first, partialMode := d.partialMode,
              partialKeys := d.partialKeys, attrs := d.attrs } o.world = true
        · exact absurd (hu.2 hdel).1 hne
        · exact hu.1 (by simpa using hdel)
      · intro hdel
        obtain ⟨h1, h2, pre, reads, h3, h4, h5⟩ := hu.2 hdel
        exact ⟨h1, h2, o.calls, pre, reads, by simp [Outcome.event, hr, h3], h4, h5⟩
    · simp only []
      refine ⟨⟨some e, o.calls, [], by simp [Outcome.event, hr]⟩, ?_, fun _ => trivial,
        fun _ => trivial, fun h => absurd h (by simp)⟩
      intro e' he'
      simp only [Option.some.injEq] at he'
      subst he'
      simp

/-- Witness of C6 amended: on the sample control plane that keeps the instance,
provisioning returns `i-new`, the final read does not find the instance deleted
and the create leaves the ID at `i-new`; on the one where the instance has
ceased, the final read finds it deleted and the create returns nil with the ID
empty. -/
theorem create_handle_witness :
    (resourceQingcloudInstanceCreate (cloud true noFailure) freshData []).d.id = "i-new" ∧
    (resourceQingcloudInstanceCreate (cloud false noFailure) freshData []).ret = .nil ∧
    (resourceQingcloudInstanceCreate (cloud false noFailure) freshData []).d.id = "" :=
  ⟨((create_handle (cloud true noFailure) freshData [] "kp-1" [] rfl).2.2
      ⟨[some "i-new"]⟩ (some "i-new") [] rfl rfl rfl).2.2.2.1 (by decide),
    (((create_handle (cloud false noFailure) freshData [] "kp-1" [] rfl).2.2
      ⟨[some "i-new"]⟩ (some "i-new") [] rfl rfl rfl).2.2.2.2 (by decide)).1,
    (((create_handle (cloud false noFailure) freshData [] "kp-1" [] rfl).2.2
      ⟨[some "i-new"]⟩ (some "i-new") [] rfl rfl rfl).2.2.2.2 (by decide)).2.1⟩

/-! ## Theorems: instance delete -/

/-- Every run of the delete has one of four shapes, cut at the first of the
lease wait, the retry-wrapped `TerminateInstances` and the confirming await
that fails. -/
theorem delete_shape {σ : Type} (m : InstanceMeta σ) (d : ResourceData) (w : σ) :
    (∃ n e,
      (m.waitInstanceLease d w).err = some e ∧
      (resourceQingcloudInstanceDelete m d w).trace = [⟨.waitInstanceLease, some e, n⟩] ∧
      (resourceQingcloudInstanceDelete m d w).ret = .error e ∧
      (resourceQingcloudInstanceDelete m d w).d = d) ∨
    (∃ n terms e,
      (m.waitInstanceLease d w).err = none ∧
      RetriedCall m (.TerminateInstances ⟨[some d.id]⟩) terms (some e) ∧
      (resourceQingcloudInstanceDelete m d w).trace = ⟨.waitInstanceLease, none, n⟩ :: terms ∧
      (resourceQingcloudInstanceDelete m d w).ret = .error e ∧
      (resourceQingcloudInstanceDelete m d w).d = d) ∨
    (∃ n terms n1 e,
      (m.waitInstanceLease d w).err = none ∧
      RetriedCall m (.TerminateInstances ⟨[some d.id]⟩) terms none ∧
      (resourceQingcloudInstanceDelete m d w).trace =
        ⟨.waitInstanceLease, none, n⟩ :: terms ++
          [⟨.InstanceTransitionStateRefresh d.id, some e, n1⟩] ∧
      (resourceQingcloudInstanceDelete m d w).ret = .error e ∧
      (resourceQingcloudInstanceDelete m d w).d = d) ∨
    (∃ n terms n1,
      (m.waitInstanceLease d w).err = none ∧
      RetriedCall m (.TerminateInstances ⟨[some d.id]⟩) terms none ∧
      (resourceQingcloudInstanceDelete m d w).trace =
        ⟨.waitInstanceLease, none, n⟩ :: terms ++
          [⟨.InstanceTransitionStateRefresh d.id, none, n1⟩] ∧
      (resourceQingcloudInstanceDelete m d w).ret = .nil ∧
      (resourceQingcloudInstanceDelete m d w).d = d.SetId "") := by
  simp only [resourceQingcloudInstanceDelete]
  rcases h1 : (m.waitInstanceLease d w).err with _ | e
  swap
  · exact Or.inl ⟨(m.waitInstanceLease d w).calls, e, rfl, by simp [Outcome.event, h1]⟩
  have hs := (retried_spec m (.TerminateInstances ⟨[some d.id]⟩)
    (m.instance_.TerminateInstances ⟨[some d.id]⟩) (m.waitInstanceLease d w).world).1
  rcases h2 : (retried m (.TerminateInstances ⟨[some d.id]⟩)
    (m.instance_.TerminateInstances ⟨[some d.id]⟩) (m.waitInstanceLease d w).world).err
    with _ | e
  swap
  · rw [h2] at hs
    exact Or.inr (Or.inl ⟨(m.waitInstanceLease d w).calls, _, e, rfl, hs, by
      simp [Outcome.event, h1]⟩)
  rw [h2] at hs
  rcases h3 : (m.InstanceTransitionStateRefresh m.instance_ d.id
    (retried m (.TerminateInstances ⟨[some d.id]⟩)
      (m.instance_.TerminateInstances ⟨[some d.id]⟩) (m.waitInstanceLease d w).world).world).err
    with _ | e
  swap
  · exact Or.inr (Or.inr (Or.inl ⟨(m.waitInstanceLease d w).calls, _,
      (m.InstanceTransitionStateRefresh m.instance_ d.id
        (retried m (.TerminateInstances ⟨[some d.id]⟩)
          (m.instance_.TerminateInstances ⟨[some d.id]⟩)
          (m.waitInstanceLease d w).world).world).calls, e, rfl, hs, by
      simp [Outcome.event, h1, h3]⟩))
  · exact Or.inr (Or.inr (Or.inr ⟨(m.waitInstanceLease d w).calls, _,
      (m.InstanceTransitionStateRefresh m.instance_ d.id
        (retried m (.TerminateInstances ⟨[some d.id]⟩)
          (m.instance_.TerminateInstances ⟨[some d.id]⟩)
          (m.waitInstanceLease d w).world).world).calls, rfl, hs, by
      simp [Outcome.event, h1, h3]⟩))

/-- C8: the delete runs the lease wait, then the retry-wrapped
`TerminateInstances` for the ID, then the confirming await, and stops at the
first that fails. It returns nil exactly when the three succeed, and then the
ID is the empty string; in every other run it returns the error of the failing
operation and the resource data, the ID included, is as on entry. -/
theorem delete_await_terminate_confirm {σ : Type} (m : InstanceMeta σ) (d : ResourceData)
    (w : σ) :
    ((∃ n e,
        (resourceQingcloudInstanceDelete m d w).trace = [⟨.waitInstanceLease, some e, n⟩] ∧
        (resourceQingcloudInstanceDelete m d w).ret = .error e) ∨
      (∃ n terms e,
        RetriedCall m (.TerminateInstances ⟨[some d.id]⟩) terms (some e) ∧
        (resourceQingcloudInstanceDelete m d w).trace =
          ⟨.waitInstanceLease, none, n⟩ :: terms ∧
        (resourceQingcloudInstanceDelete m d w).ret = .error e) ∨
      (∃ n terms n1 e,
        RetriedCall m (.TerminateInstances ⟨[some d.id]⟩) terms none ∧
        (resourceQingcloudInstanceDelete m d w).trace =
          ⟨.waitInstanceLease, none, n⟩ :: terms ++
            [⟨.InstanceTransitionStateRefresh d.id, some e, n1⟩] ∧
        (resourceQingcloudInstanceDelete m d w).ret = .error e) ∨
      (∃ n terms n1,
        RetriedCall m (.TerminateInstances ⟨[some d.id]⟩) terms none ∧
        (resourceQingcloudInstanceDelete m d w).trace =
          ⟨.waitInstanceLease, none, n⟩ :: terms ++
            [⟨.InstanceTransitionStateRefresh d.id, none, n1⟩] ∧
        (resourceQingcloudInstanceDelete m d w).ret = .nil)) ∧
    ((resourceQingcloudInstanceDelete m d w).ret = .nil ↔
      ∃ n terms n1,
        RetriedCall m (.TerminateInstances ⟨[some d.id]⟩) terms none ∧
        (resourceQingcloudInstanceDelete m d w).trace =
          ⟨.waitInstanceLease, none, n⟩ :: terms ++
            [⟨.InstanceTransitionStateRefresh d.id, none, n1⟩]) ∧
    ((resourceQingcloudInstanceDelete m d w).ret = .nil →
      (resourceQingcloudInstanceDelete m d w).d = { d with id := "" }) ∧
    ((resourceQingcloudInstanceDelete m d w).ret ≠ .nil →
      (resourceQingcloudInstanceDelete m d w).d = d) := by
  rcases delete_shape m d w with ⟨n, e, -, ht, hr, hd⟩ | ⟨n, terms, e, -, hc, ht, hr, hd⟩ |
    ⟨n, terms, n1, e, -, hc, ht, hr, hd⟩ | ⟨n, terms, n1, -, hc, ht, hr, hd⟩
  · refine ⟨Or.inl ⟨n, e, ht, hr⟩, ?_, ?_, ?_⟩
    · rw [hr, ht]
      simp
    · rw [hr]
      intro h
      exact absurd h (by simp)
    · exact fun _ => hd
  · refine ⟨Or.inr (Or.inl ⟨n, terms, e, hc, ht, hr⟩), ?_, ?_, ?_⟩
    · rw [hr, ht]
      refine ⟨fun h => absurd h (by simp), ?_⟩
      rintro ⟨n', terms', n1', _, heq⟩
      exfalso
      have htl : terms = terms' ++ [⟨.InstanceTransitionStateRefresh d.id, none, n1'⟩] :=
        (List.cons_eq_cons.1 heq).2
      have hop := (hc.2.2.1 ⟨.InstanceTransitionStateRefresh d.id, none, n1'⟩
        (by rw [htl]; simp)).1
      simp at hop
    · rw [hr]
      intro h
      exact absurd h (by simp)
    · exact fun _ => hd
  · refine ⟨Or.inr (Or.inr (Or.inl ⟨n, terms, n1, e, hc, ht, hr⟩)), ?_, ?_, ?_⟩
    · rw [hr, ht]
      refine ⟨fun h => absurd h (by simp), ?_⟩
      rintro ⟨n', terms', n1', _, heq⟩
      exfalso
      have htl := List.append_inj_right' (List.cons_eq_cons.1 heq).2 rfl
      simp at htl
    · rw [hr]
      intro h
      exact absurd h (by simp)
    · exact fun _ => hd
  · refine ⟨Or.inr (Or.inr (Or.inr ⟨n, terms, n1, hc, ht, hr⟩)), ?_, ?_, ?_⟩
    · rw [hr]
      simp only [true_iff]
      exact ⟨n, terms, n1, hc, ht⟩
    · exact fun _ => hd
    · rw [hr]
      intro h
      exact absurd rfl h

/-- Witness of C8: a delete of a live instance succeeds and clears the ID; a
delete whose terminate is rejected keeps the resource data. -/
theorem delete_await_terminate_confirm_witness :
    (resourceQingcloudInstanceDelete (cloud true noFailure) existingData ["i-1"]).d =
      { existingData with id := "" } ∧
    (resourceQingcloudInstanceDelete (cloud true noFailure) existingData []).d =
      existingData :=
  ⟨(delete_await_terminate_confirm (cloud true noFailure) existingData ["i-1"]).2.2.1
      (by decide),
    (delete_await_terminate_confirm (cloud true noFailure) existingData []).2.2.2
      (by decide)⟩

/-- C4, as stated, fails: on a control plane where the instance `i-1` does not
exist, the delete of the handle `i-1` issues `TerminateInstances` for it and
returns the error of that call. -/
theorem delete_absent_refuted :
    (resourceQingcloudInstanceDelete (cloud true noFailure) existingData []).trace =
      [⟨.waitInstanceLease, none, 0⟩,
       ⟨.TerminateInstances ⟨[some "i-1"]⟩, some "ResourceNotFound", 1⟩] ∧
    (resourceQingcloudInstanceDelete (cloud true noFailure) existingData []).ret =
      .error "ResourceNotFound" := by
  refine ⟨by decide, by decide⟩

/-- C4, amended: the delete does not look at whether the resource still exists.
Whenever the lease wait returns nil it issues `TerminateInstances` for the ID of
the handle, and it returns nil only after a `TerminateInstances` for that ID has
returned without error. -/
theorem delete_issues_terminate {σ : Type} (m : InstanceMeta σ) (d : ResourceData) (w : σ) :
    ((m.waitInstanceLease d w).err = none →
      ∃ ev ∈ (resourceQingcloudInstanceDelete m d w).trace,
        ev.op = .TerminateInstances ⟨[some d.id]⟩) ∧
    ((resourceQingcloudInstanceDelete m d w).ret = .nil →
      ∃ ev ∈ (resourceQingcloudInstanceDelete m d w).trace,
        ev.op = .TerminateInstances ⟨[some d.id]⟩ ∧ ev.err = none) := by
  have hlast : ∀ (terms : List Event) (final : Option Err),
      RetriedCall m (.TerminateInstances ⟨[some d.id]⟩) terms final →
      ∃ ev ∈ terms, ev.op = .TerminateInstances ⟨[some d.id]⟩ ∧ ev.err = final := by
    intro terms final hc
    obtain ⟨ev, hev, herr⟩ := Option.map_eq_some'.1 hc.2.2.2.2
    have hmem := List.mem_of_getLast?_eq_some hev
    exact ⟨ev, hmem, (hc.2.2.1 ev hmem).1, herr⟩
  rcases delete_shape m d w with ⟨n, e, hl, ht, hr, -⟩ | ⟨n, terms, e, -, hc, ht, hr, -⟩ |
    ⟨n, terms, n1, e, -, hc, ht, hr, -⟩ | ⟨n, terms, n1, -, hc, ht, hr, -⟩
  · rw [hr, hl]
    exact ⟨fun h => absurd h (by simp), fun h => absurd h (by simp)⟩
  · obtain ⟨ev, hmem, hop, -⟩ := hlast terms _ hc
    rw [hr, ht]
    exact ⟨fun _ => ⟨ev, List.mem_cons_of_mem _ hmem, hop⟩, fun h => absurd h (by simp)⟩
  · obtain ⟨ev, hmem, hop, -⟩ := hlast terms _ hc
    rw [hr, ht]
    exact ⟨fun _ => ⟨ev, List.mem_append_left _ (List.mem_cons_of_mem _ hmem), hop⟩,
      fun h => absurd h (by simp)⟩
  · obtain ⟨ev, hmem, hop, herr⟩ := hlast terms _ hc
    rw [ht]
    exact ⟨fun _ => ⟨ev, List.mem_append_left _ (List.mem_cons_of_mem _ hmem), hop⟩,
      fun _ => ⟨ev, List.mem_append_left _ (List.mem_cons_of_mem _ hmem), hop, herr⟩⟩

/-- Witness of C4 amended: on the control plane where `i-1` does not exist the
lease wait returns nil and `TerminateInstances` is issued. -/
theorem delete_issues_terminate_witness :
    ∃ ev ∈ (resourceQingcloudInstanceDelete (cloud true noFailure) existingData []).trace,
      ev.op = .TerminateInstances ⟨[some existingData.id]⟩ :=
  (delete_issues_terminate (cloud true noFailure) existingData []).1 rfl

end Qingcloud
